import Mathlib

/-!
Verification development for the jtkj-sensortag-gateway repository.

The definitions below are a shallow embedding of the gateway's core logic:

* the byte-escaping frame codec (`lib/util.js`, `decodeEscapedBuffer`),
* the Levenshtein / closest-match suggestion machinery (`lib/util.js`),
* the schema-driven tokenizer (`lib/reader.js`, `readDataTokens`) over the
  session-aware schema of `config.js` (the revision whose data types carry
  the `session`/`ping` commands and the `ax`..`gz` sensor columns that the
  reader's session accumulator consumes),
* the per-address session accumulator (`lib/reader.js`, `unwrap` and
  `makeDataEntry`),
* the port-discovery blacklist / round-robin selection (`lib/portFinder.js`)
  and challenge parsing (`lib/uart.js`, `parseChallenge`),
* the outbound UART packet builder (`lib/uart.js`, `uartWrite`).

Buffers are modelled as `List Nat` of byte values; JavaScript numbers are
modelled as exact rationals extended with signed infinities (`JsNum`), with
`none : Option JsNum` standing for NaN, so that the NaN tests the decoders
perform are captured exactly.
-/

set_option maxRecDepth 100000
set_option synthInstance.maxSize 2000

namespace SensortagGateway

/-! ## Frame codec (`lib/util.js`, `decodeEscapedBuffer`) -/

/-- The escape byte of the wire protocol (`ESCAPECHAR = 0xf0`). -/
def ESCAPECHAR : Nat := 0xf0

/-- The stand-in byte of the wire protocol (`STANDINCHAR = 0xf1`). -/
def STANDINCHAR : Nat := 0xf1

/-- The end-of-message byte of the wire protocol (`EOMCHAR = 0xf2`). -/
def EOMCHAR : Nat := 0xf2

/-- The loop body of `decodeEscapedBuffer`, recursing over the remaining
input with the current run length `escLen` of escape bytes.  Mirrors the
`for (c of b)` loop and the trailing `while (escLen-- > 0)` flush. -/
def decodeEscapedGo : List Nat → Nat → List Nat
  | [], escLen => List.replicate escLen ESCAPECHAR
  | c :: rest, escLen =>
    if c = ESCAPECHAR then decodeEscapedGo rest (escLen + 1)
    else if c = STANDINCHAR then
      List.replicate (escLen / 2) ESCAPECHAR
        ++ [if escLen % 2 = 1 then EOMCHAR else STANDINCHAR]
        ++ decodeEscapedGo rest 0
    else
      List.replicate escLen ESCAPECHAR ++ [c] ++ decodeEscapedGo rest 0

/-- `decodeEscapedBuffer` from `lib/util.js`: decode a buffer that was
encoded with the escape-byte scheme.  The JS version writes into a
pre-allocated buffer through a write index and slices it to the written
length; the writes happen in exactly the order of the list produced here. -/
def decodeEscapedBuffer (b : List Nat) : List Nat := decodeEscapedGo b 0

/-- One step of the reference decoder described by the specification: the
state is the count of pending escape bytes together with the output
emitted so far. -/
def specDecodeStep : Nat × List Nat → Nat → Nat × List Nat
  | (escLen, out), c =>
    if c = ESCAPECHAR then (escLen + 1, out)
    else if c = STANDINCHAR then
      (0, out ++ List.replicate (escLen / 2) ESCAPECHAR
            ++ [if escLen % 2 = 1 then EOMCHAR else STANDINCHAR])
    else
      (0, out ++ List.replicate escLen ESCAPECHAR ++ [c])

/-- The reference decoder of the specification, written as a left-to-right
scan: count consecutive escape bytes, emit on stand-in / ordinary bytes,
and flush trailing escape bytes at end of input. -/
def specDecode (b : List Nat) : List Nat :=
  let st := b.foldl specDecodeStep (0, [])
  st.2 ++ List.replicate st.1 ESCAPECHAR

/-! ## Levenshtein distance and closest match (`lib/util.js`) -/

/-- Substitution cost of the classic Levenshtein recurrence:
`cost = (str1[i-1] == str2[j-1]) ? 0 : 1`. -/
def levCost (a b : Char) : Nat := if a = b then 0 else 1

/-- Fill the rest of one column of the Levenshtein DP matrix.  `s1` is the
remaining characters of `str1`, `c2` the current character of `str2`,
`diag` is `d[i-1][j-1]`, `up` is `d[i-1][j]` (the freshly computed cell
above), and `prevTail` holds `d[i][j-1], d[i+1][j-1], ...`. -/
def levColGo (c2 : Char) : List Char → Nat → Nat → List Nat → List Nat
  | [], _, _, _ => []
  | _ :: _, _, _, [] => []
  | a :: s1, diag, up, p :: prevTail =>
    let cur := min (min (up + 1) (p + 1)) (diag + levCost a c2)
    cur :: levColGo c2 s1 p cur prevTail

/-- Compute column `j` of the DP matrix from column `j-1`.  The head of
every column `j` is `d[0][j] = j`, which equals `d[0][j-1] + 1`. -/
def levNextCol (s1 : List Char) (prev : List Nat) (c2 : Char) : List Nat :=
  match prev with
  | [] => []
  | p0 :: rest => (p0 + 1) :: levColGo c2 s1 p0 (p0 + 1) rest

/-- `levenshtein` from `lib/util.js`: the Wagner–Fischer dynamic program,
with columns indexed by `str2` (the JS code fills the matrix column by
column, `j` outer and `i` inner).  Column 0 is `d[i][0] = i`, and the
result is the bottom-right cell `d[m][n]`. -/
def levenshtein (str1 str2 : String) : Nat :=
  let s1 := str1.data
  let s2 := str2.data
  if s2.length = 0 then s1.length
  else if s1.length = 0 then s2.length
  else
    let final := s2.foldl (levNextCol s1) (List.range (s1.length + 1))
    final.getLastD 0

/-- The accumulator loop of `closestMatch`: `best` is `bestMatch`
(`none` standing for the initial `undefined`) and `bestNum` the best
distance so far, initialised to `100` by the caller. -/
def closestMatchGo (str : String) : List String → Option String → Nat → Option String
  | [], best, _ => best
  | sugg :: rest, best, bestNum =>
    let dist := levenshtein str sugg
    if dist < bestNum then closestMatchGo str rest (some sugg) dist
    else closestMatchGo str rest best bestNum

/-- `closestMatch` from `lib/util.js`: scan the suggestions keeping the
first strict improvement over the running best distance, which starts at
`100`; when nothing improves on `100` the JS function returns
`undefined`, modelled as `none`. -/
def closestMatch (str : String) (suggestions : List String) : Option String :=
  closestMatchGo str suggestions none 100

/-- First element of a list minimising `f` (earlier elements win ties);
used to state what suggestion `closestMatch` picks. -/
def firstArgmin (f : String → Nat) : List String → Option String
  | [] => none
  | x :: xs =>
    match firstArgmin f xs with
    | none => some x
    | some y => if f x ≤ f y then some x else some y

/-! ## Message schema (`config.js`, `gateway.dataTypes` short names) -/

/-- The `shortName` fields of `gateway.dataTypes` in schema order. -/
def schemaShortNames : List String :=
  ["time", "id", "ping", "session", "EAT", "EXERCISE", "PET", "ACTIVATE",
   "MSG1", "MSG2", "temp", "humid", "press", "light",
   "ax", "ay", "az", "gx", "gy", "gz"]

/-- JavaScript `String.prototype.toLowerCase` on the ASCII field names the
tokenizer handles. -/
def jsToLowerCase (s : String) : String := String.mk (s.data.map Char.toLower)

/-- Rendering of the suggestion inside the unknown-field error message:
string concatenation with JavaScript `undefined` produces the literal text
`"undefined"`. -/
def renderSuggestion : Option String → String
  | some t => t
  | none => "undefined"

/-- The unknown-field rejection message built in `readDataTokens`
(`lib/reader.js`): the field name, then the closest match over the schema
short names of the lowercased name. -/
def unknownFieldError (name : String) : String :=
  "Error: Unknown field label \"" ++ name ++ "\". Did you mean \"" ++
    renderSuggestion (closestMatch (jsToLowerCase name) schemaShortNames) ++ "\"?"

/-! ## JavaScript number semantics

The schema decoders test `isNaN(Number(d))`, `Number.parseFloat`,
`Number.parseInt` and `Number.isFinite`.  JavaScript numbers are modelled
as exact rationals extended with the two infinities; `none` stands for
NaN.  (The double-precision rounding JavaScript applies after parsing is
immaterial to the decoders, which only test NaN-ness and finiteness.) -/

/-- A JavaScript number that is not NaN. -/
inductive JsNum where
  | fin (q : ℚ)
  | posInf
  | negInf
deriving DecidableEq, Repr

/-- Negation of a JavaScript number. -/
def jsNumNeg : JsNum → JsNum
  | .fin q => .fin (-q)
  | .posInf => .negInf
  | .negInf => .posInf

/-- `Number.isFinite`. -/
def jsNumIsFinite : JsNum → Bool
  | .fin _ => true
  | _ => false

/-- Rendering of a JavaScript number inside an error message.  Only the
infinite cases are ever rendered by the embedded code paths (a finite
value always takes the resolve branch before the message is built). -/
def jsNumDisplay : JsNum → String
  | .posInf => "Infinity"
  | .negInf => "-Infinity"
  | .fin q => toString q

/-- The whitespace characters `Number` / `parseFloat` / `parseInt` strip. -/
def isJsWhitespace (c : Char) : Bool :=
  c = ' ' || c = '\t' || c = '\n' || c = '\r' || c = '\x0b' || c = '\x0c'

/-- Value of a decimal digit character. -/
def decDigitVal (c : Char) : Nat := c.toNat - 48

/-- Value of a string of decimal digits. -/
def decValue (l : List Char) : Nat := l.foldl (fun a c => 10 * a + decDigitVal c) 0

/-- Hexadecimal digit test. -/
def isHexDigitChar (c : Char) : Bool :=
  c.isDigit || ('a' ≤ c && c ≤ 'f') || ('A' ≤ c && c ≤ 'F')

/-- Value of a hexadecimal digit character. -/
def hexDigitVal (c : Char) : Nat :=
  if c.isDigit then c.toNat - 48
  else if 'a' ≤ c && c ≤ 'f' then c.toNat - 87
  else c.toNat - 55

/-- Value of a string of hexadecimal digits. -/
def hexValue (l : List Char) : Nat := l.foldl (fun a c => 16 * a + hexDigitVal c) 0

/-- Binary digit test. -/
def isBinDigitChar (c : Char) : Bool := c = '0' || c = '1'

/-- Value of a string of binary digits. -/
def binValue (l : List Char) : Nat := l.foldl (fun a c => 2 * a + decDigitVal c) 0

/-- Octal digit test. -/
def isOctDigitChar (c : Char) : Bool := '0' ≤ c && c ≤ '7'

/-- Value of a string of octal digits. -/
def octValue (l : List Char) : Nat := l.foldl (fun a c => 8 * a + decDigitVal c) 0

/-- Split a character list at the first exponent marker `e` / `E`. -/
def splitExp : List Char → List Char × Option (List Char)
  | [] => ([], none)
  | c :: rest =>
    if c = 'e' ∨ c = 'E' then ([], some rest)
    else
      let (m, e) := splitExp rest
      (c :: m, e)

/-- Parse a full (unsigned, exponent-free) decimal mantissa:
`Digits`, `Digits . Digits?` or `. Digits`; `none` when the characters are
not exactly of this shape. -/
def parseDecMantissa (s : List Char) : Option ℚ :=
  let ds := s.takeWhile Char.isDigit
  match s.drop ds.length with
  | [] => if ds.isEmpty then none else some ((decValue ds : ℚ))
  | '.' :: fs =>
    if fs.all Char.isDigit ∧ (ds ≠ [] ∨ fs ≠ []) then
      some ((decValue ds : ℚ) + (decValue fs : ℚ) / (10 : ℚ) ^ fs.length)
    else none
  | _ => none

/-- Parse a full optionally signed decimal digit string (an exponent). -/
def parseSignedDigits : List Char → Option Int
  | '+' :: r => if r ≠ [] ∧ r.all Char.isDigit then some ((decValue r : Int)) else none
  | '-' :: r => if r ≠ [] ∧ r.all Char.isDigit then some (-(decValue r : Int)) else none
  | r => if r ≠ [] ∧ r.all Char.isDigit then some ((decValue r : Int)) else none

/-- Parse a full unsigned `StrDecimalLiteral`: `Infinity`, or a decimal
mantissa with an optional exponent part. -/
def parseStrUnsignedDec (s : List Char) : Option JsNum :=
  if s = "Infinity".data then some .posInf
  else
    match splitExp s with
    | (mant, none) => (parseDecMantissa mant).map .fin
    | (mant, some e) =>
      match parseDecMantissa mant, parseSignedDigits e with
      | some m, some k => some (.fin (m * (10 : ℚ) ^ k))
      | _, _ => none

/-- ECMAScript `ToNumber` on strings (the semantics of `Number(d)` for a
string argument): trim whitespace; empty means `0`; otherwise the whole
remaining text must be a numeric literal — decimal (optionally signed,
optional fraction and exponent, `Infinity`), or an unsigned `0x`/`0b`/`0o`
integer literal.  `none` is NaN; trailing garbage makes the whole string
NaN, it is never truncated away. -/
def jsStringToNumber (str : String) : Option JsNum :=
  let s := ((str.data.dropWhile isJsWhitespace).reverse.dropWhile isJsWhitespace).reverse
  match s with
  | [] => some (.fin 0)
  | '0' :: 'x' :: r =>
    if r ≠ [] ∧ r.all isHexDigitChar then some (.fin (hexValue r)) else none
  | '0' :: 'X' :: r =>
    if r ≠ [] ∧ r.all isHexDigitChar then some (.fin (hexValue r)) else none
  | '0' :: 'b' :: r =>
    if r ≠ [] ∧ r.all isBinDigitChar then some (.fin (binValue r)) else none
  | '0' :: 'B' :: r =>
    if r ≠ [] ∧ r.all isBinDigitChar then some (.fin (binValue r)) else none
  | '0' :: 'o' :: r =>
    if r ≠ [] ∧ r.all isOctDigitChar then some (.fin (octValue r)) else none
  | '0' :: 'O' :: r =>
    if r ≠ [] ∧ r.all isOctDigitChar then some (.fin (octValue r)) else none
  | '+' :: r => parseStrUnsignedDec r
  | '-' :: r => (parseStrUnsignedDec r).map jsNumNeg
  | r => parseStrUnsignedDec r

/-- Exponent value consumed by `parseFloat`: the longest valid
`e`-suffix; an absent or malformed exponent contributes `0` (the mantissa
alone is still a valid prefix). -/
def expPrefixVal : List Char → Int
  | '+' :: u =>
    if u.takeWhile Char.isDigit = [] then 0 else (decValue (u.takeWhile Char.isDigit) : Int)
  | '-' :: u =>
    if u.takeWhile Char.isDigit = [] then 0 else -(decValue (u.takeWhile Char.isDigit) : Int)
  | u =>
    if u.takeWhile Char.isDigit = [] then 0 else (decValue (u.takeWhile Char.isDigit) : Int)

/-- The unsigned part of `Number.parseFloat`: longest numeric-literal
prefix (`Infinity`, or digits with optional fraction and exponent);
`none` when no prefix is numeric at all. -/
def jsParseFloatSigned (r : List Char) : Option JsNum :=
  if "Infinity".data.isPrefixOf r then some .posInf
  else
    let ds := r.takeWhile Char.isDigit
    let r1 := r.drop ds.length
    let fs :=
      match r1 with
      | '.' :: t => t.takeWhile Char.isDigit
      | _ => []
    let r2 :=
      match r1 with
      | '.' :: t => t.drop (t.takeWhile Char.isDigit).length
      | _ => r1
    if ds = [] ∧ fs = [] then none
    else
      let base : ℚ := (decValue ds : ℚ) + (decValue fs : ℚ) / (10 : ℚ) ^ fs.length
      let ex : Int :=
        match r2 with
        | 'e' :: t => expPrefixVal t
        | 'E' :: t => expPrefixVal t
        | _ => 0
      some (.fin (base * (10 : ℚ) ^ ex))

/-- `Number.parseFloat(d)`: trim leading whitespace, optional sign, then
the longest numeric-literal prefix; trailing garbage is ignored, so
`parseFloat` truncates where `Number` yields NaN. -/
def jsParseFloat (str : String) : Option JsNum :=
  match str.data.dropWhile isJsWhitespace with
  | '+' :: r => jsParseFloatSigned r
  | '-' :: r => (jsParseFloatSigned r).map jsNumNeg
  | r => jsParseFloatSigned r

/-- Digit-prefix part of `Number.parseInt` with unspecified radix: a
`0x`/`0X` prefix switches to hexadecimal, otherwise the longest decimal
digit prefix; `none` (NaN) when there are no digits. -/
def jsParseIntDigits : List Char → Option Nat
  | '0' :: 'x' :: t =>
    if t.takeWhile isHexDigitChar = [] then none
    else some (hexValue (t.takeWhile isHexDigitChar))
  | '0' :: 'X' :: t =>
    if t.takeWhile isHexDigitChar = [] then none
    else some (hexValue (t.takeWhile isHexDigitChar))
  | r =>
    if r.takeWhile Char.isDigit = [] then none
    else some (decValue (r.takeWhile Char.isDigit))

/-- `Number.parseInt(d)` (no radix argument). -/
def jsParseInt (str : String) : Option Int :=
  match str.data.dropWhile isJsWhitespace with
  | '+' :: r => (jsParseIntDigits r).map Int.ofNat
  | '-' :: r => (jsParseIntDigits r).map (fun n => -(n : Int))
  | r => (jsParseIntDigits r).map Int.ofNat

/-- Hexadecimal digit-prefix part of `Number.parseInt(d, 16)`: an
optional `0x`/`0X` prefix is skipped, then the longest hex digit prefix. -/
def jsParseIntRadix16Digits (r : List Char) : Option Nat :=
  let t :=
    match r with
    | '0' :: 'x' :: t => t
    | '0' :: 'X' :: t => t
    | t => t
  if t.takeWhile isHexDigitChar = [] then none
  else some (hexValue (t.takeWhile isHexDigitChar))

/-- `Number.parseInt(d, 16)`, used on destination addresses in
`uartWrite`. -/
def jsParseIntRadix16 (str : String) : Option Int :=
  match str.data.dropWhile isJsWhitespace with
  | '+' :: r => (jsParseIntRadix16Digits r).map Int.ofNat
  | '-' :: r => (jsParseIntRadix16Digits r).map (fun n => -(n : Int))
  | r => (jsParseIntRadix16Digits r).map Int.ofNat

/-! ## String helpers mirroring the JavaScript methods the reader uses -/

/-- Loop of `jsSplitOnChar`, accumulating the current piece reversed. -/
def splitOnCharGo (sep : Char) : List Char → List Char → List String
  | [], acc => [String.mk acc.reverse]
  | c :: rest, acc =>
    if c = sep then String.mk acc.reverse :: splitOnCharGo sep rest []
    else splitOnCharGo sep rest (c :: acc)

/-- `str.split(sep)` for a one-character separator. -/
def jsSplitOnChar (sep : Char) (s : String) : List String :=
  splitOnCharGo sep s.data []

/-- `str.trim()` (the received field names and values are ASCII, so the
ASCII whitespace set suffices). -/
def jsTrim (s : String) : String :=
  String.mk (((s.data.dropWhile isJsWhitespace).reverse.dropWhile isJsWhitespace).reverse)

/-- `array.join(sep)`. -/
def joinWith (sep : String) : List String → String
  | [] => ""
  | [x] => x
  | x :: xs => x ++ sep ++ joinWith sep xs

/-! ## Message schema (`config.js`, `gateway.dataTypes`) -/

/-- A decoded field value: the resolve value of a schema decode promise. -/
inductive JsValue where
  | num (a : JsNum)
  | str (s : String)
  | bool (b : Bool)
  | triple (x y z : JsNum)
deriving DecidableEq, Repr

/-- One entry of `gateway.dataTypes`.  `decodeFun` embeds the entry's
`fun` promise: `.ok` is resolve, `.error` is the first reject. -/
structure DataType where
  shortName : String
  nameInDB : String
  topics : List String
  forceSend : Bool
  decodeFun : String → Except String JsValue

/-- The decoder shape shared by `time` and every numeric sensor field
(`temp`, `humid`, `press`, `light`, `ax`..`gz`):
`let a = Number(d); if (isNaN(a) || d == '') reject(msg + d); resolve(a)`. -/
def numberFieldFun (errPrefix : String) (d : String) : Except String JsValue :=
  if (jsStringToNumber d).isNone || d = "" then .error (errPrefix ++ d)
  else .ok (.num ((jsStringToNumber d).getD (.fin 0)))

/-- The `id` decoder: `!isNaN(Number("0x" + d)) && d.length <= 4 && d != ''`
resolves with `("0000" + d).slice(-4)`. -/
def idFun (d : String) : Except String JsValue :=
  if (jsStringToNumber ("0x" ++ d)).isSome ∧ d.length ≤ 4 ∧ d ≠ "" then
    .ok (.str (String.mk (("0000" ++ d).data.drop (("0000" ++ d).data.length - 4))))
  else .error ("Error: SensorTag ID has to be 4 hex digits: " ++ d)

/-- The `ping` decoder: always resolves `"pong"`. -/
def pingFun (_d : String) : Except String JsValue := .ok (.str "pong")

/-- The `session` decoder: `"start"`/`"end"` resolve `d == "start"`. -/
def sessionFun (d : String) : Except String JsValue :=
  if d = "start" ∨ d = "end" then .ok (.bool (d = "start"))
  else .error ("Error: Session instruction not recognized: " ++ d)

/-- The decoder shape shared by `EAT` / `EXERCISE` / `PET`: a full-string
number, additionally required finite, placed into one slot of a
three-component action triple. -/
def tamaFieldFun (errNonNum errAmount : String) (mk : JsNum → JsValue) (d : String) :
    Except String JsValue :=
  if (jsStringToNumber d).isNone || d = "" then .error (errNonNum ++ d)
  else
    let a := (jsStringToNumber d).getD (.fin 0)
    if ¬ jsNumIsFinite a then .error (errAmount ++ jsNumDisplay a)
    else .ok (mk a)

/-- The `ACTIVATE` decoder: three `;`-separated full-string numbers.  (The
source also has a third reject guarded by `Number.isFinite` applied to the
whole array, which is never true, so no such rejection can fire.) -/
def activateFun (d : String) : Except String JsValue :=
  let parts := (jsSplitOnChar ';' d).map jsStringToNumber
  if parts.length ≠ 3 then .error "Error: ACTIVATE needs three arguments."
  else if parts.any Option.isNone || d = "" then
    .error ("Error: Non-numeric ACTIVATE increment: " ++ d)
  else
    .ok (.triple ((parts.getD 0 none).getD (.fin 0)) ((parts.getD 1 none).getD (.fin 0))
      ((parts.getD 2 none).getD (.fin 0)))

/-- The `MSG1` / `MSG2` decoder: resolves the raw text. -/
def msgFieldFun (d : String) : Except String JsValue := .ok (.str d)

/-- `gateway.dataTypes` from `config.js` (the session-aware schema), in
source order. -/
def gatewayDataTypes : List DataType :=
  [⟨"time", "timeStamp", ["event", "sensordata"], false,
      numberFieldFun "Error: Non-numeric timestamp: "⟩,
   ⟨"id", "sensortagID", ["event", "additionalMessages"], false, idFun⟩,
   ⟨"ping", "ping", ["commands"], false, pingFun⟩,
   ⟨"session", "session", ["commands"], false, sessionFun⟩,
   ⟨"EAT", "eat", ["tamaActions"], false,
      tamaFieldFun "Error: Non-numeric EAT increment: "
        "Error: Tamagotchi cannot EAT the amount: " (fun a => .triple a (.fin 0) (.fin 0))⟩,
   ⟨"EXERCISE", "exercise", ["tamaActions"], false,
      tamaFieldFun "Error: Non-numeric EXERCISE increment: "
        "Error: Tamagotchi cannot EXERCISE the amount: " (fun a => .triple (.fin 0) a (.fin 0))⟩,
   ⟨"PET", "pet", ["tamaActions"], false,
      tamaFieldFun "Error: Non-numeric PET increment: "
        "Error: Tamagotchi cannot be PET the amount: " (fun a => .triple (.fin 0) (.fin 0) a)⟩,
   ⟨"ACTIVATE", "ACTIVATE", ["tamaActions"], false, activateFun⟩,
   ⟨"MSG1", "msg1", ["additionalMessages"], true, msgFieldFun⟩,
   ⟨"MSG2", "msg2", ["additionalMessages"], true, msgFieldFun⟩,
   ⟨"temp", "temperature", ["sensordata"], false,
      numberFieldFun "Error: Non-numeric temperature: "⟩,
   ⟨"humid", "humidity", ["sensordata"], false,
      numberFieldFun "Error: Non-numeric humidity: "⟩,
   ⟨"press", "pressure", ["sensordata"], false,
      numberFieldFun "Error: Non-numeric pressure: "⟩,
   ⟨"light", "lightIntensity", ["sensordata"], false,
      numberFieldFun "Error: Non-numeric light intensity: "⟩,
   ⟨"ax", "ax", ["sensordata"], false,
      numberFieldFun "Error: Non-numeric acceleration (x): "⟩,
   ⟨"ay", "ay", ["sensordata"], false,
      numberFieldFun "Error: Non-numeric acceleration (y): "⟩,
   ⟨"az", "az", ["sensordata"], false,
      numberFieldFun "Error: Non-numeric acceleration (z): "⟩,
   ⟨"gx", "gx", ["sensordata"], false,
      numberFieldFun "Error: Non-numeric gyroscope (x): "⟩,
   ⟨"gy", "gy", ["sensordata"], false,
      numberFieldFun "Error: Non-numeric gyroscope (y): "⟩,
   ⟨"gz", "gz", ["sensordata"], false,
      numberFieldFun "Error: Non-numeric gyroscope (z): "⟩]

/-! ## Tokenizer (`lib/reader.js`, `readDataTokens`) -/

/-- The tokenizer's mutable state: `addr`, `sends` and `resultDicts`. -/
structure TokState where
  addr : Option String
  sends : List String
  resultDicts : List (String × List (String × JsValue))
deriving DecidableEq, Repr

/-- `resultDicts[table][name] = d` on one topic dictionary: replace the
entry in place if the key exists, append otherwise (JS object key
insertion order). -/
def dictInsert (d : List (String × JsValue)) (k : String) (v : JsValue) :
    List (String × JsValue) :=
  if d.any (fun p => p.1 = k) then d.map (fun p => if p.1 = k then (k, v) else p)
  else d ++ [(k, v)]

/-- `if (!(table in resultDicts)) resultDicts[table] = {};
resultDicts[table][name] = d`. -/
def dictsInsert (rd : List (String × List (String × JsValue))) (table k : String)
    (v : JsValue) : List (String × List (String × JsValue)) :=
  if rd.any (fun p => p.1 = table) then
    rd.map (fun p => if p.1 = table then (p.1, dictInsert p.2 k v) else p)
  else rd ++ [(table, dictInsert [] k v)]

/-- The decoded value captured into `addr` when the field is `id`. -/
def jsValueAsAddr : JsValue → Option String
  | .str s => some s
  | _ => none

/-- Body of the `for (const table of dtype.topics)` loop. -/
def applyTopic (dtype : DataType) (d : JsValue) (st : TokState) (table : String) :
    TokState :=
  { addr := if dtype.shortName = "id" then jsValueAsAddr d else st.addr
    sends :=
      if dtype.forceSend ≠ false ∧ table ∉ st.sends then st.sends ++ [table]
      else st.sends
    resultDicts := dictsInsert st.resultDicts table dtype.nameInDB d }

/-- The name part of a token: `pair[0]` after
`pair = token.split(":")` and trimming. -/
def tokenName (token : String) : String :=
  jsTrim ((jsSplitOnChar ':' token).headD "")

/-- The value part of a token: `pair.slice(1).join(":")` trimmed.  (The
reassigned `pair` always has two entries, so the decoder always receives
this string, which is empty when the token had no colon.) -/
def tokenValue (token : String) : String :=
  jsTrim (joinWith ":" ((jsSplitOnChar ':' token).drop 1))

/-- Processing of one comma-separated token: split at the first `:` into
name and value, look the name up in the schema, run the decoder and
distribute the value over its topics; an unknown name rejects with the
closest-match suggestion. -/
def processToken (st : TokState) (token : String) : Except String TokState :=
  match gatewayDataTypes.find? (fun t => t.shortName = tokenName token) with
  | some dtype =>
    match dtype.decodeFun (tokenValue token) with
    | .error e => .error e
    | .ok d => .ok (dtype.topics.foldl (applyTopic dtype d) st)
  | none => .error (unknownFieldError (tokenName token))

/-- `readDataTokens` over a pre-split token list (the loop body of the
source function with the promise's first settlement as the result). -/
def readDataTokensList (tokens : List String) :
    Except String (String × List String × List (String × List (String × JsValue))) :=
  match tokens.foldlM processToken ⟨none, [], []⟩ with
  | .error e => .error e
  | .ok st =>
    if st.addr = none ∨ st.addr = some "" then .error "Error: No SensorTag ID given!"
    else .ok (st.addr.getD "", st.sends, st.resultDicts)

/-- `readDataTokens` from `lib/reader.js`: split the received string on
`,` and process each token in order; the promise settles with the first
rejection, or with `(addr, sends, resultDicts)`. -/
def readDataTokens (data : String) :
    Except String (String × List String × List (String × List (String × JsValue))) :=
  readDataTokensList (jsSplitOnChar ',' data)

/-- Decidable equality on `Except`, for evaluating tokenizer results on
concrete inputs. -/
instance {e a : Type} [DecidableEq e] [DecidableEq a] : DecidableEq (Except e a) := by
  intro x y
  cases x with
  | error u =>
    cases y with
    | error v =>
      by_cases h : u = v
      · exact isTrue (by rw [h])
      · exact isFalse (by intro hh; cases hh; exact h rfl)
    | ok v => exact isFalse (by intro hh; cases hh)
  | ok u =>
    cases y with
    | error v => exact isFalse (by intro hh; cases hh)
    | ok v =>
      by_cases h : u = v
      · exact isTrue (by rw [h])
      · exact isFalse (by intro hh; cases hh; exact h rfl)

/-- The specification's notion of a raw value that "parses in full as a
number": a non-empty value whose entire text `Number` accepts (so no
partial numeric prefix followed by other characters). -/
def parsesInFullAsNumber (d : String) : Prop :=
  d ≠ "" ∧ (jsStringToNumber d).isSome

instance (d : String) : Decidable (parsesInFullAsNumber d) := by
  unfold parsesInFullAsNumber
  infer_instance

/-- An unknown field name far (Levenshtein distance at least 100) from
every schema short name: 100 copies of `q`, a letter no short name
contains. -/
def longUnknownName : String := String.mk (List.replicate 100 'q')

/-! ## Session accumulator (`lib/reader.js`, `unwrap` / `makeDataEntry`)

`unwrap`'s session paths are driven by the decoded `resultDicts`:
`commands.session` (true = start, false = end), `commands.ping` and the
`sensordata` topic dictionary, keyed by the sender address.  `DecodedMsg`
is that projection of the tokenizer output; the `tamaActions` merge in
`unwrap` only rewrites the resolved per-topic dictionaries and touches
neither the session store, the UART queue nor the rejection outcome, so
it does not appear in the state.  Timestamps (`moment()` values) are
modelled as integer milliseconds. -/

/-- A per-address session buffer, as built by `makeDataEntry`: the tag id,
the session start timestamp, and one column per sensor (in JS object
insertion order); `none` inside a column is the `null` filler. -/
structure SessionEntry where
  sensortagID : String
  sessionTimeStamp : Int
  temperature : List (Option JsNum)
  humidity : List (Option JsNum)
  pressure : List (Option JsNum)
  lightIntensity : List (Option JsNum)
  timeStamp : List (Option JsNum)
  ax : List (Option JsNum)
  ay : List (Option JsNum)
  az : List (Option JsNum)
  gx : List (Option JsNum)
  gy : List (Option JsNum)
  gz : List (Option JsNum)
deriving DecidableEq, Repr

/-- `makeDataEntry` from `lib/reader.js`: a fresh buffer for `addr` with
the current time as session timestamp and all columns empty. -/
def makeDataEntry (addr : String) (now : Int) : SessionEntry :=
  ⟨addr, now, [], [], [], [], [], [], [], [], [], [], []⟩

/-- The `sensordata` dictionary of one decoded message, projected onto
the session columns: `some` for a field present in this row. -/
structure SensorRow where
  temperature : Option JsNum
  humidity : Option JsNum
  pressure : Option JsNum
  lightIntensity : Option JsNum
  timeStamp : Option JsNum
  ax : Option JsNum
  ay : Option JsNum
  az : Option JsNum
  gx : Option JsNum
  gy : Option JsNum
  gz : Option JsNum
deriving DecidableEq, Repr

/-- A row with no sensor fields present. -/
def emptyRow : SensorRow :=
  ⟨none, none, none, none, none, none, none, none, none, none, none⟩

/-- The `for (label in sessionData[addr])` push loop: append one value to
every column — the decoded value when the field is present, `null`
otherwise, and for a missing timestamp the elapsed time
`moment().utc().diff(sessionTimeStamp)` since session start. -/
def addRow (e : SessionEntry) (r : SensorRow) (now : Int) : SessionEntry :=
  { e with
    temperature := e.temperature ++ [r.temperature]
    humidity := e.humidity ++ [r.humidity]
    pressure := e.pressure ++ [r.pressure]
    lightIntensity := e.lightIntensity ++ [r.lightIntensity]
    timeStamp := e.timeStamp ++
      [match r.timeStamp with
       | none => some (.fin ((now - e.sessionTimeStamp : Int) : ℚ))
       | some t => some t]
    ax := e.ax ++ [r.ax]
    ay := e.ay ++ [r.ay]
    az := e.az ++ [r.az]
    gx := e.gx ++ [r.gx]
    gy := e.gy ++ [r.gy]
    gz := e.gz ++ [r.gz] }

/-- The `sessionData` map, keyed by sender address. -/
abbrev SessionStore := List (String × SessionEntry)

/-- `sessionData[addr]` (or `addr in sessionData`, via `isSome`). -/
def storeLookup (st : SessionStore) (addr : String) : Option SessionEntry :=
  (st.find? (fun p => p.1 = addr)).map Prod.snd

/-- `sessionData[addr] = e`: replace in place when the key exists
(JS property assignment keeps insertion order), append otherwise. -/
def storeInsert (st : SessionStore) (addr : String) (e : SessionEntry) : SessionStore :=
  if st.any (fun p => p.1 = addr) then
    st.map (fun p => if p.1 = addr then (addr, e) else p)
  else st ++ [(addr, e)]

/-- `delete sessionData[addr]`. -/
def storeErase (st : SessionStore) (addr : String) : SessionStore :=
  st.filter (fun p => p.1 != addr)

/-- The session buffer as handed to `comm.send("sensordata", ...)`, after
`delete sessionData[addr].sessionTimeStamp`. -/
structure SentSession where
  sensortagID : String
  temperature : List (Option JsNum)
  humidity : List (Option JsNum)
  pressure : List (Option JsNum)
  lightIntensity : List (Option JsNum)
  timeStamp : List (Option JsNum)
  ax : List (Option JsNum)
  ay : List (Option JsNum)
  az : List (Option JsNum)
  gx : List (Option JsNum)
  gy : List (Option JsNum)
  gz : List (Option JsNum)
deriving DecidableEq, Repr

/-- Removal of the `sessionTimeStamp` field before the downstream send. -/
def stripSessionTimeStamp (e : SessionEntry) : SentSession :=
  ⟨e.sensortagID, e.temperature, e.humidity, e.pressure, e.lightIntensity,
   e.timeStamp, e.ax, e.ay, e.az, e.gx, e.gy, e.gz⟩

/-- The session-relevant projection of one successfully tokenized
message. -/
structure DecodedMsg where
  addr : String
  sessionCmd : Option Bool
  ping : Option String
  sensordata : Option SensorRow
deriving DecidableEq, Repr

/-- A message carrying only `session:start`. -/
def startMsg (addr : String) : DecodedMsg := ⟨addr, some true, none, none⟩

/-- A message carrying only `session:end`. -/
def endMsg (addr : String) : DecodedMsg := ⟨addr, some false, none, none⟩

/-- A message carrying only sensor data. -/
def dataMsg (addr : String) (row : SensorRow) : DecodedMsg := ⟨addr, none, none, some row⟩

/-- An outbound reply queued through `uartWrite({addr, str})`. -/
structure UartJob where
  addr : String
  str : String
deriving DecidableEq, Repr

/-- The observable effects of `unwrap` on one message: the session store
afterwards, the `uartWrite` calls issued (in order), the buffers flushed
through `comm.send("sensordata", ...)`, and the promise settlement
(`.error` is the first reject). -/
structure StepResult where
  store : SessionStore
  writes : List UartJob
  flushed : List SentSession
  outcome : Except String Unit
deriving DecidableEq

/-- `"Error: Sensor data received while no session has been started."` -/
def noSessionError : String :=
  "Error: Sensor data received while no session has been started."

/-- `"Error: Sensor data session is full (maxSessionRows rows)."` -/
def sessionFullError (maxRows : Nat) : String :=
  "Error: Sensor data session is full (" ++ toString maxRows ++ " rows)."

/-- `"Error: The session was empty. It will not be sent."` -/
def emptySessionError : String :=
  "Error: The session was empty. It will not be sent."

/-- `"Error: No session was started. Session data send prevented."` -/
def sessionNotStartedError : String :=
  "Error: No session was started. Session data send prevented."

/-- The ping reply stage of `unwrap` (runs before session-end handling):
`uartWrite({addr, str: resultDicts.commands.ping})` when a ping is
present. -/
def pingWrites (m : DecodedMsg) : List UartJob :=
  match m.ping with
  | some p => [⟨m.addr, p⟩]
  | none => []

/-- The session-end stage of `unwrap`.  On an empty buffer the source
rejects and returns with the `delete sessionData[addr]` line commented
out, so the error path leaves the store unchanged. -/
def sessionEndStep (store : SessionStore) (m : DecodedMsg) :
    SessionStore × List SentSession × Except String Unit :=
  if m.sessionCmd = some false then
    match storeLookup store m.addr with
    | some e =>
      if e.timeStamp.length = 0 then (store, [], .error emptySessionError)
      else (storeErase store m.addr, [stripSessionTimeStamp e], .ok ())
    | none => (store, [], .error sessionNotStartedError)
  else (store, [], .ok ())

/-- The stages of `unwrap` that follow the sensordata stage: ping reply,
then session end. -/
def afterDataStages (store : SessionStore) (m : DecodedMsg) : StepResult :=
  ⟨(sessionEndStep store m).1, pingWrites m,
   (sessionEndStep store m).2.1, (sessionEndStep store m).2.2⟩

/-- The session-start stage of `unwrap`:
`sessionData[addr] = makeDataEntry(addr)` on `session:start`, also while
a session is already open (destructive restart). -/
def startStage (store : SessionStore) (m : DecodedMsg) (now : Int) : SessionStore :=
  if m.sessionCmd = some true then storeInsert store m.addr (makeDataEntry m.addr now)
  else store

/-- The session-relevant behaviour of `unwrap` on one decoded message, in
source order: session start (destructive re-creation of the buffer),
sensordata (rejecting with no-session or capacity errors, which return
before the ping reply), ping reply, session end. -/
def unwrapStep (maxRows : Nat) (store : SessionStore) (m : DecodedMsg) (now : Int) :
    StepResult :=
  match m.sensordata with
  | some row =>
    match storeLookup (startStage store m now) m.addr with
    | none => ⟨startStage store m now, [], [], .error noSessionError⟩
    | some e =>
      if maxRows ≤ e.timeStamp.length then
        ⟨startStage store m now, [], [], .error (sessionFullError maxRows)⟩
      else afterDataStages (storeInsert (startStage store m now) m.addr (addRow e row now)) m
  | none => afterDataStages (startStage store m now) m

/-- Processing of a sequence of timed messages: frames are handled in
arrival order; per-message errors are reported and dropped, and the
writes and flushes accumulate in order. -/
def runMessages (maxRows : Nat) (store : SessionStore) :
    List (DecodedMsg × Int) → SessionStore × List UartJob × List SentSession
  | [] => (store, [], [])
  | (m, now) :: rest =>
    let r := unwrapStep maxRows store m now
    match runMessages maxRows r.store rest with
    | (st, ws, fl) => (st, r.writes ++ ws, r.flushed ++ fl)

/-- All eleven columns of a session buffer have length `n`. -/
def allColLen (e : SessionEntry) (n : Nat) : Prop :=
  e.temperature.length = n ∧ e.humidity.length = n ∧ e.pressure.length = n ∧
  e.lightIntensity.length = n ∧ e.timeStamp.length = n ∧ e.ax.length = n ∧
  e.ay.length = n ∧ e.az.length = n ∧ e.gx.length = n ∧ e.gy.length = n ∧
  e.gz.length = n

instance (e : SessionEntry) (n : Nat) : Decidable (allColLen e n) := by
  unfold allColLen
  infer_instance

/-- All eleven columns of a flushed buffer have length `n`. -/
def allSentColLen (s : SentSession) (n : Nat) : Prop :=
  s.temperature.length = n ∧ s.humidity.length = n ∧ s.pressure.length = n ∧
  s.lightIntensity.length = n ∧ s.timeStamp.length = n ∧ s.ax.length = n ∧
  s.ay.length = n ∧ s.az.length = n ∧ s.gx.length = n ∧ s.gy.length = n ∧
  s.gz.length = n

instance (s : SentSession) (n : Nat) : Decidable (allSentColLen s n) := by
  unfold allSentColLen
  infer_instance

/-- The per-buffer invariant of the claim: all columns share the
timestamp column's length. -/
def entryColumnsEqual (e : SessionEntry) : Prop := allColLen e e.timeStamp.length

instance (e : SessionEntry) : Decidable (entryColumnsEqual e) := by
  unfold entryColumnsEqual
  infer_instance

/-- Every open session buffer in the store has equal-length columns. -/
def storeInvariant (store : SessionStore) : Prop :=
  ∀ p ∈ store, entryColumnsEqual p.2

instance (store : SessionStore) : Decidable (storeInvariant store) := by
  unfold storeInvariant
  infer_instance

/-! ## Port discovery (`lib/portFinder.js`) and challenge parsing (`lib/uart.js`)

The polling tick of `listPorts` ends with the auto-find selection over
the accepted candidates `ok` (pairs `[path, pnpId]`), the round-robin
index `n` and the per-hardware-id `blacklist` counters; `nextPort`
increments the counter of the candidate tried last when a challenge
times out, and a valid challenge response clears all counters. -/

/-- The mutable module state of the port finder that the selection logic
reads and writes. -/
structure FinderState where
  ok : List (String × String)
  n : Nat
  blacklist : List (String × Nat)
deriving DecidableEq, Repr

/-- `blacklist[hw]`.  Accepted candidates are registered with counter 0
when first seen; for an absent key JS reads `undefined`, which fails the
`> maxTries` comparison exactly as the default 0 does. -/
def blGet (bl : List (String × Nat)) (hw : String) : Nat :=
  ((bl.find? (fun p => p.1 = hw)).map Prod.snd).getD 0

/-- `blacklist[hw] += 1` for a registered key (the source only increments
keys it has registered with 0 beforehand). -/
def blIncr (bl : List (String × Nat)) (hw : String) : List (String × Nat) :=
  bl.map (fun p => if p.1 = hw then (p.1, p.2 + 1) else p)

/-- JS `Array.prototype.sort` on `[path, pnpId]` pairs compares the
string forms `path + "," + pnpId`. -/
def jsSortKey (p : String × String) : String := p.1 ++ "," ++ p.2

/-- Lexicographic comparison of character lists (JS string comparison is
code-unit lexicographic; path and pnp id strings are ASCII). -/
def charListLe : List Char → List Char → Bool
  | [], _ => true
  | _ :: _, [] => false
  | a :: as, b :: bs => if a = b then charListLe as bs else decide (a < b)

/-- JS `<=` on strings. -/
def jsStrLe (a b : String) : Bool := charListLe a.data b.data

/-- Stable insertion step of the candidate sort. -/
def jsSortInsert (x : String × String) :
    List (String × String) → List (String × String)
  | [] => [x]
  | y :: ys =>
    if jsStrLe (jsSortKey x) (jsSortKey y) then x :: y :: ys else y :: jsSortInsert x ys

/-- `ok.sort()`, modelled as a stable insertion sort on the JS string
comparison key. -/
def jsSortPairs : List (String × String) → List (String × String)
  | [] => []
  | x :: xs => jsSortInsert x (jsSortPairs xs)

/-- The auto-find selection at the end of one `listPorts` polling tick:
`ok.sort(); n %= ok.length;` then skip the current candidate (advancing
`n`, leaving its counter untouched) when its blacklist counter exceeds
`maxTries`, otherwise resolve with its path (also advancing `n`). -/
def selectTick (maxTries : Nat) (st : FinderState) : FinderState × Option String :=
  if st.ok.isEmpty then (st, none)
  else
    let okS := jsSortPairs st.ok
    let i := st.n % okS.length
    let cand := okS.getD i ("", "")
    if maxTries < blGet st.blacklist cand.2 then
      ({ st with ok := okS, n := i + 1 }, none)
    else
      ({ st with ok := okS, n := i + 1 }, some cand.1)

/-- `nextPort` from `lib/portFinder.js`: increment the blacklist counter
of the candidate tried last (`m = n - 1`, wrapped to the end below
zero). -/
def nextPort (st : FinderState) : FinderState :=
  if st.ok.isEmpty then st
  else
    { st with
      blacklist :=
        blIncr st.blacklist
          ((st.ok.getD (if st.n = 0 then st.ok.length - 1 else st.n - 1) ("", "")).2) }

/-- The challenge-response signature test of `parseChallenge`
(`lib/uart.js`): `data[0] == data[1] && data[1] == 0xfe && data[2] == 1`;
out-of-range Buffer reads give `undefined`, equal only to itself, which
`Option` equality mirrors. -/
def challengeHeaderOk (data : List Nat) : Prop :=
  data.get? 0 = data.get? 1 ∧ data.get? 1 = some 0xfe ∧ data.get? 2 = some 1

instance (data : List Nat) : Decidable (challengeHeaderOk data) := by
  unfold challengeHeaderOk
  infer_instance

/-- `parseChallenge` from `lib/uart.js`, as it acts on the finder state
and the `uart.responded` flag: a frame with the valid 3-byte header —
from any device — calls `portFinder.clearBlacklist()` (resetting all
counters) and sets `responded`; the function itself always returns
`false`.  Result: `(finder state, responded, return value)`. -/
def parseChallenge (data : List Nat) (st : FinderState) (responded : Bool) :
    FinderState × Bool × Bool :=
  if challengeHeaderOk data then ({ st with blacklist := [] }, true, false)
  else (st, responded, false)

/-! ## Outbound UART encoding (`lib/uart.js`, `uartWrite`) -/

/-- `txBuf.writeUInt16LE(v)`: the two little-endian bytes written at
offsets 0 and 1. -/
def writeUInt16LE (v : Nat) : List Nat := [v % 256, v / 256 % 256]

/-- `txBuf.asciiWrite(s, ...)`: one byte per character of the command
text (which is 7-bit ASCII). -/
def asciiBytes (s : String) : List Nat := s.data.map (fun c => c.toNat % 256)

/-- A `Buffer.alloc(n)` buffer after writing `l` at offset 0: the
remaining allocation stays zero-filled. -/
def padZerosTo (n : Nat) (l : List Nat) : List Nat :=
  l ++ List.replicate (n - l.length) 0

/-- `str.substr(0, k)`. -/
def jsSubstrTake (s : String) (k : Nat) : String := String.mk (s.data.take k)

/-- The item `[txBuf, publish, blockedCount]` that `uartWrite` enqueues
into the FIFO send queue. -/
structure QueueItem where
  txBuf : List Nat
  publish : Bool
  blockedCount : Nat
deriving DecidableEq, Repr

/-- `uartWrite` from `lib/uart.js`: the transmit buffer is built at
enqueue time, before the item enters the FIFO.  In server mode a
non-internal job gets the destination address (`msg.addr`, defaulting to
the `ffff` broadcast when absent or null) written as a little-endian
16-bit prefix, with the payload text truncated to `txlength - 3` bytes at
offset 2; otherwise (peer mode, or an internal frame) the raw text is
written at offset 0 truncated to `txlength - 1` bytes.  `Buffer.alloc`
zero-fills, so the buffer always ends in at least one zero byte. -/
def uartWrite (isServer : Bool) (txlength : Nat) (addrOpt : Option String)
    (internalFlag : Bool) (str : String) (publish : Bool) (blockedCount : Nat) :
    QueueItem :=
  if isServer ∧ ¬ internalFlag then
    ⟨padZerosTo txlength
        (writeUInt16LE ((jsParseIntRadix16 (addrOpt.getD "ffff")).getD 0).toNat ++
          asciiBytes (jsSubstrTake str (txlength - 3))),
      publish, blockedCount⟩
  else
    ⟨padZerosTo txlength (asciiBytes (jsSubstrTake str (txlength - 1))),
      publish, blockedCount⟩

/-! ## Supporting lemmas -/

/-! ### Facts about `firstArgmin` and `closestMatchGo` -/

theorem firstArgmin_eq_none_iff (f : String → Nat) :
    ∀ l : List String, firstArgmin f l = none ↔ l = [] := by
  intro l
  cases l with
  | nil => simp [firstArgmin]
  | cons x xs =>
    simp only [firstArgmin]
    cases h : firstArgmin f xs with
    | none => simp
    | some y =>
      by_cases hle : f x ≤ f y
      · simp [hle]
      · simp [hle]

theorem firstArgmin_isSome (f : String → Nat) :
    ∀ l : List String, l ≠ [] → ∃ t, firstArgmin f l = some t := by
  intro l hl
  cases h : firstArgmin f l with
  | none => exact absurd ((firstArgmin_eq_none_iff f l).mp h) hl
  | some t => exact ⟨t, rfl⟩

theorem firstArgmin_mem_le (f : String → Nat) :
    ∀ (l : List String) (t : String), firstArgmin f l = some t →
      t ∈ l ∧ ∀ u ∈ l, f t ≤ f u := by
  intro l
  induction l with
  | nil => intro t h; simp [firstArgmin] at h
  | cons x xs ih =>
    intro t h
    simp only [firstArgmin] at h
    cases hxs : firstArgmin f xs with
    | none =>
      have hnil : xs = [] := (firstArgmin_eq_none_iff f xs).mp hxs
      simp only [hxs, Option.some.injEq] at h
      subst h
      subst hnil
      exact ⟨List.mem_cons_self x [], by intro u hu; simp at hu; rw [hu]⟩
    | some y =>
      simp only [hxs] at h
      rcases ih y hxs with ⟨hymem, hyle⟩
      by_cases hle : f x ≤ f y
      · rw [if_pos hle] at h
        simp only [Option.some.injEq] at h
        subst h
        refine ⟨List.mem_cons_self _ _, ?_⟩
        intro u hu
        rcases List.mem_cons.mp hu with hux | hux
        · rw [hux]
        · exact le_trans hle (hyle u hux)
      · rw [if_neg hle] at h
        simp only [Option.some.injEq] at h
        subst h
        refine ⟨List.mem_cons_of_mem x hymem, ?_⟩
        intro u hu
        rcases List.mem_cons.mp hu with hux | hux
        · rw [hux]; exact le_of_not_le hle
        · exact hyle u hux

theorem firstArgmin_mem (f : String → Nat) (l : List String) (t : String)
    (h : firstArgmin f l = some t) : t ∈ l :=
  (firstArgmin_mem_le f l t h).1

theorem firstArgmin_le (f : String → Nat) (l : List String) (t : String)
    (h : firstArgmin f l = some t) : ∀ u ∈ l, f t ≤ f u :=
  (firstArgmin_mem_le f l t h).2

theorem closestMatchGo_of_forall_le (str : String) :
    ∀ (l : List String) (best : Option String) (bestNum : Nat),
      (∀ x ∈ l, bestNum ≤ levenshtein str x) →
      closestMatchGo str l best bestNum = best := by
  intro l
  induction l with
  | nil => intro best bestNum _; rfl
  | cons x xs ih =>
    intro best bestNum hall
    have hx : bestNum ≤ levenshtein str x := hall x (List.mem_cons_self x xs)
    simp only [closestMatchGo, Nat.not_lt_of_le hx, if_neg (Nat.not_lt_of_le hx)]
    exact ih best bestNum (fun y hy => hall y (List.mem_cons_of_mem x hy))

theorem closestMatchGo_eq_firstArgmin (str : String) :
    ∀ (l : List String) (best : Option String) (bestNum : Nat),
      (∃ x ∈ l, levenshtein str x < bestNum) →
      closestMatchGo str l best bestNum = firstArgmin (levenshtein str) l := by
  intro l
  induction l with
  | nil =>
    intro best bestNum h
    rcases h with ⟨x, hx, _⟩
    simp at hx
  | cons x xs ih =>
    intro best bestNum h
    by_cases hx : levenshtein str x < bestNum
    · simp only [closestMatchGo, if_pos hx]
      by_cases hrest : ∃ y ∈ xs, levenshtein str y < levenshtein str x
      · rw [ih (some x) (levenshtein str x) hrest]
        rcases hrest with ⟨y, hy, hylt⟩
        rcases firstArgmin_isSome (levenshtein str) xs
          (by intro hnil; rw [hnil] at hy; simp at hy) with ⟨t, ht⟩
        have htle : levenshtein str t ≤ levenshtein str y :=
          firstArgmin_le _ xs t ht y hy
        have : ¬ levenshtein str x ≤ levenshtein str t :=
          Nat.not_le_of_lt (Nat.lt_of_le_of_lt htle hylt)
        simp [firstArgmin, ht, this]
      · push_neg at hrest
        rw [closestMatchGo_of_forall_le str xs (some x) (levenshtein str x) hrest]
        cases hfa : firstArgmin (levenshtein str) xs with
        | none => simp [firstArgmin, hfa]
        | some y =>
          have : levenshtein str x ≤ levenshtein str y :=
            hrest y (firstArgmin_mem _ xs y hfa)
          simp [firstArgmin, hfa, this]
    · have hxle : bestNum ≤ levenshtein str x := Nat.le_of_not_lt hx
      rcases h with ⟨z, hz, hzlt⟩
      rcases List.mem_cons.mp hz with hzx | hzxs
      · exact absurd (hzx ▸ hzlt) hx
      · simp only [closestMatchGo, if_neg hx]
        rw [ih best bestNum ⟨z, hzxs, hzlt⟩]
        rcases firstArgmin_isSome (levenshtein str) xs
          (by intro hnil; rw [hnil] at hzxs; simp at hzxs) with ⟨t, ht⟩
        have htle : levenshtein str t ≤ levenshtein str z :=
          firstArgmin_le _ xs t ht z hzxs
        have : ¬ levenshtein str x ≤ levenshtein str t :=
          Nat.not_le_of_lt (Nat.lt_of_le_of_lt htle (Nat.lt_of_lt_of_le hzlt hxle))
        simp [firstArgmin, ht, this]

theorem decodeEscapedGo_eq_fold (b : List Nat) :
    ∀ (esc : Nat) (out : List Nat),
      out ++ decodeEscapedGo b esc =
        (b.foldl specDecodeStep (esc, out)).2
          ++ List.replicate (b.foldl specDecodeStep (esc, out)).1 ESCAPECHAR := by
  induction b with
  | nil => intro esc out; simp [decodeEscapedGo]
  | cons c rest ih =>
    intro esc out
    by_cases hesc : c = ESCAPECHAR
    · simp only [decodeEscapedGo, List.foldl_cons, specDecodeStep, if_pos hesc]
      exact ih (esc + 1) out
    · by_cases hstand : c = STANDINCHAR
      · simp only [decodeEscapedGo, List.foldl_cons, specDecodeStep,
          if_neg hesc, if_pos hstand]
        rw [← ih 0 (out ++ List.replicate (esc / 2) ESCAPECHAR
          ++ [if esc % 2 = 1 then EOMCHAR else STANDINCHAR])]
        simp [List.append_assoc]
      · simp only [decodeEscapedGo, List.foldl_cons, specDecodeStep,
          if_neg hesc, if_neg hstand]
        rw [← ih 0 (out ++ List.replicate esc ESCAPECHAR ++ [c])]
        simp [List.append_assoc]

/-- Sanity: the literal short-name list used in the suggestion lemmas is
exactly the schema's short names in iteration order. -/
theorem gatewayDataTypes_shortNames :
    gatewayDataTypes.map DataType.shortName = schemaShortNames := rfl



/-! ### Session store lemmas -/

theorem find?_append_none {α : Type} (p : α → Bool) :
    ∀ (l1 l2 : List α), l1.find? p = none → (l1 ++ l2).find? p = l2.find? p := by
  intro l1
  induction l1 with
  | nil => intro l2 _; rfl
  | cons x xs ih =>
    intro l2 h
    cases hx : p x with
    | true => rw [List.find?_cons_of_pos _ hx] at h; cases h
    | false =>
      have hx' : ¬ p x = true := by rw [hx]; exact Bool.false_ne_true
      rw [List.find?_cons_of_neg _ hx'] at h
      rw [List.cons_append, List.find?_cons_of_neg _ hx']
      exact ih l2 h

theorem find?_map_overwrite (a : String) (e : SessionEntry) :
    ∀ st : SessionStore,
      (st.map (fun p => if p.1 = a then (a, e) else p)).find? (fun p => p.1 = a) =
        if st.any (fun p => p.1 = a) then some (a, e) else none := by
  intro st
  induction st with
  | nil => rfl
  | cons x xs ih =>
    by_cases hx : x.1 = a
    · simp [hx]
    · have hd : (decide (x.1 = a)) = false := decide_eq_false hx
      rw [List.map_cons, List.any_cons, if_neg hx,
        List.find?_cons_of_neg _ (by rw [hd]; exact Bool.false_ne_true), ih, hd,
        Bool.false_or]

theorem storeLookup_insert_self (st : SessionStore) (a : String) (e : SessionEntry) :
    storeLookup (storeInsert st a e) a = some e := by
  unfold storeLookup storeInsert
  by_cases h : st.any (fun p => p.1 = a)
  · rw [if_pos h, find?_map_overwrite a e st, if_pos h]
    rfl
  · rw [if_neg h]
    have hnone : st.find? (fun p => (p.1 = a : Bool)) = none := by
      rw [List.find?_eq_none]
      intro x hx hpx
      exact h (List.any_eq_true.mpr ⟨x, hx, hpx⟩)
    rw [find?_append_none _ st [(a, e)] hnone]
    simp

theorem storeLookup_erase_self (st : SessionStore) (a : String) :
    storeLookup (storeErase st a) a = none := by
  unfold storeLookup storeErase
  have : (st.filter (fun p => p.1 != a)).find? (fun p => (p.1 = a : Bool)) = none := by
    rw [List.find?_eq_none]
    intro x hx
    have hmem := List.mem_filter.mp hx
    simpa using hmem.2
  rw [this]
  rfl

theorem storeLookup_mem (st : SessionStore) (a : String) (e : SessionEntry)
    (h : storeLookup st a = some e) : (a, e) ∈ st := by
  unfold storeLookup at h
  cases hfind : st.find? (fun p => (p.1 = a : Bool)) with
  | none => rw [hfind] at h; cases h
  | some q =>
    rw [hfind] at h
    have hq1 := List.find?_some hfind
    simp only [decide_eq_true_eq] at hq1
    have hq2 : q.2 = e := by simpa using h
    have hmem := List.mem_of_find?_eq_some hfind
    have : q = (a, e) := by
      cases q with
      | mk q1 q2 =>
        simp only at hq1 hq2
        rw [hq1, hq2]
    rw [← this]
    exact hmem

theorem storeInvariant_insert (st : SessionStore) (a : String) (e : SessionEntry)
    (hinv : storeInvariant st) (he : entryColumnsEqual e) :
    storeInvariant (storeInsert st a e) := by
  intro p hp
  unfold storeInsert at hp
  by_cases h : st.any (fun q => q.1 = a)
  · rw [if_pos h] at hp
    rcases List.mem_map.mp hp with ⟨q, hq, hq2⟩
    by_cases hqa : q.1 = a
    · rw [← hq2, if_pos hqa]
      exact he
    · rw [← hq2, if_neg hqa]
      exact hinv q hq
  · rw [if_neg h] at hp
    rcases List.mem_append.mp hp with hp | hp
    · exact hinv p hp
    · have : p = (a, e) := by simpa using hp
      rw [this]
      exact he

theorem storeInvariant_erase (st : SessionStore) (a : String)
    (hinv : storeInvariant st) : storeInvariant (storeErase st a) := by
  intro p hp
  exact hinv p (List.mem_filter.mp hp).1

theorem storeInvariant_lookup (st : SessionStore) (a : String) (e : SessionEntry)
    (hinv : storeInvariant st) (h : storeLookup st a = some e) :
    entryColumnsEqual e :=
  hinv (a, e) (storeLookup_mem st a e h)

theorem allColLen_addRow (e : SessionEntry) (r : SensorRow) (now : Int) (n : Nat)
    (h : allColLen e n) : allColLen (addRow e r now) (n + 1) := by
  obtain ⟨h1, h2, h3, h4, h5, h6, h7, h8, h9, h10, h11⟩ := h
  exact ⟨by simp [addRow, h1], by simp [addRow, h2], by simp [addRow, h3],
    by simp [addRow, h4], by simp [addRow, h5], by simp [addRow, h6],
    by simp [addRow, h7], by simp [addRow, h8], by simp [addRow, h9],
    by simp [addRow, h10], by simp [addRow, h11]⟩

theorem addRow_timeStamp_length (e : SessionEntry) (r : SensorRow) (now : Int) :
    (addRow e r now).timeStamp.length = e.timeStamp.length + 1 := by
  simp [addRow]

theorem entryColumnsEqual_addRow (e : SessionEntry) (r : SensorRow) (now : Int)
    (h : entryColumnsEqual e) : entryColumnsEqual (addRow e r now) := by
  unfold entryColumnsEqual at h ⊢
  rw [addRow_timeStamp_length]
  exact allColLen_addRow e r now _ h

theorem entryColumnsEqual_make (addr : String) (now : Int) :
    entryColumnsEqual (makeDataEntry addr now) := by
  exact ⟨rfl, rfl, rfl, rfl, rfl, rfl, rfl, rfl, rfl, rfl, rfl⟩

theorem startStage_inv (store : SessionStore) (m : DecodedMsg) (now : Int)
    (hinv : storeInvariant store) : storeInvariant (startStage store m now) := by
  unfold startStage
  by_cases h : m.sessionCmd = some true
  · rw [if_pos h]
    exact storeInvariant_insert _ _ _ hinv (entryColumnsEqual_make m.addr now)
  · rw [if_neg h]
    exact hinv

theorem sessionEndStep_inv (store : SessionStore) (m : DecodedMsg)
    (hinv : storeInvariant store) : storeInvariant (sessionEndStep store m).1 := by
  unfold sessionEndStep
  by_cases hc : m.sessionCmd = some false
  · rw [if_pos hc]
    cases hl : storeLookup store m.addr with
    | none => exact hinv
    | some e =>
      by_cases hz : e.timeStamp.length = 0
      · simp only [hz, if_pos rfl]
        exact hinv
      · simp only [if_neg hz]
        exact storeInvariant_erase store m.addr hinv
  · rw [if_neg hc]
    exact hinv

theorem unwrapStep_inv (maxRows : Nat) (store : SessionStore) (m : DecodedMsg) (now : Int)
    (hinv : storeInvariant store) : storeInvariant (unwrapStep maxRows store m now).store := by
  have h1 : storeInvariant (startStage store m now) := startStage_inv store m now hinv
  unfold unwrapStep
  cases hm : m.sensordata with
  | none => exact sessionEndStep_inv _ m h1
  | some row =>
    cases hl : storeLookup (startStage store m now) m.addr with
    | none => exact h1
    | some e =>
      dsimp only
      by_cases hfull : maxRows ≤ e.timeStamp.length
      · rw [if_pos hfull]
        exact h1
      · rw [if_neg hfull]
        have he : entryColumnsEqual e := storeInvariant_lookup _ _ _ h1 hl
        exact sessionEndStep_inv _ m
          (storeInvariant_insert _ _ _ h1 (entryColumnsEqual_addRow e row now he))


/-! ### Step-shape lemmas for the session claims -/

theorem startStage_of_not_start (store : SessionStore) (m : DecodedMsg) (now : Int)
    (hns : m.sessionCmd ≠ some true) : startStage store m now = store := by
  unfold startStage
  rw [if_neg hns]

theorem unwrapStep_start (maxRows : Nat) (store : SessionStore) (addr : String) (now : Int) :
    unwrapStep maxRows store (startMsg addr) now =
      ⟨storeInsert store addr (makeDataEntry addr now), [], [], Except.ok ()⟩ := by
  unfold unwrapStep startStage afterDataStages sessionEndStep pingWrites
  simp [startMsg]

theorem unwrapStep_data_reject (maxRows : Nat) (store : SessionStore) (m : DecodedMsg)
    (now : Int) (e : SessionEntry) (row : SensorRow)
    (hns : m.sessionCmd ≠ some true) (hdata : m.sensordata = some row)
    (hlook : storeLookup store m.addr = some e)
    (hfull : maxRows ≤ e.timeStamp.length) :
    unwrapStep maxRows store m now =
      ⟨store, [], [], Except.error (sessionFullError maxRows)⟩ := by
  have hstart : startStage store m now = store := startStage_of_not_start store m now hns
  unfold unwrapStep
  rw [hdata, hstart, hlook]
  dsimp only
  rw [if_pos hfull]

theorem unwrapStep_dataMsg_accept (maxRows : Nat) (store : SessionStore) (addr : String)
    (row : SensorRow) (now : Int) (e : SessionEntry)
    (hlook : storeLookup store addr = some e)
    (hroom : e.timeStamp.length < maxRows) :
    unwrapStep maxRows store (dataMsg addr row) now =
      ⟨storeInsert store addr (addRow e row now), [], [], Except.ok ()⟩ := by
  have hstart : startStage store ⟨addr, none, none, some row⟩ now = store :=
    startStage_of_not_start store ⟨addr, none, none, some row⟩ now (by simp)
  unfold unwrapStep
  dsimp only [dataMsg]
  rw [hstart, hlook]
  dsimp only
  rw [if_neg (Nat.not_le_of_lt hroom)]
  unfold afterDataStages sessionEndStep pingWrites
  simp [dataMsg]

theorem unwrapStep_end_flush (maxRows : Nat) (store : SessionStore) (addr : String)
    (now : Int) (e : SessionEntry)
    (hlook : storeLookup store addr = some e) (hnz : e.timeStamp.length ≠ 0) :
    unwrapStep maxRows store (endMsg addr) now =
      ⟨storeErase store addr, [], [stripSessionTimeStamp e], Except.ok ()⟩ := by
  have hstart : startStage store ⟨addr, some false, none, none⟩ now = store :=
    startStage_of_not_start store ⟨addr, some false, none, none⟩ now (by simp)
  unfold unwrapStep
  dsimp only [endMsg]
  rw [hstart]
  unfold afterDataStages sessionEndStep pingWrites
  simp [endMsg, hlook, hnz]

theorem runMessages_cons (maxRows : Nat) (store : SessionStore) (m : DecodedMsg)
    (now : Int) (rest : List (DecodedMsg × Int)) :
    runMessages maxRows store ((m, now) :: rest) =
      ((runMessages maxRows (unwrapStep maxRows store m now).store rest).1,
       (unwrapStep maxRows store m now).writes ++
         (runMessages maxRows (unwrapStep maxRows store m now).store rest).2.1,
       (unwrapStep maxRows store m now).flushed ++
         (runMessages maxRows (unwrapStep maxRows store m now).store rest).2.2) := by
  cases hr : runMessages maxRows (unwrapStep maxRows store m now).store rest with
  | mk st p =>
    cases p with
    | mk ws fl => simp [runMessages, hr]

theorem runMessages_append (maxRows : Nat) :
    ∀ (l1 l2 : List (DecodedMsg × Int)) (store : SessionStore),
      runMessages maxRows store (l1 ++ l2) =
        ((runMessages maxRows (runMessages maxRows store l1).1 l2).1,
         (runMessages maxRows store l1).2.1 ++
           (runMessages maxRows (runMessages maxRows store l1).1 l2).2.1,
         (runMessages maxRows store l1).2.2 ++
           (runMessages maxRows (runMessages maxRows store l1).1 l2).2.2) := by
  intro l1
  induction l1 with
  | nil =>
    intro l2 store
    simp [runMessages]
  | cons x l1 ih =>
    intro l2 store
    cases x with
    | mk m now =>
      rw [List.cons_append, runMessages_cons, runMessages_cons, ih]
      simp [List.append_assoc]

theorem allSentColLen_strip (e : SessionEntry) (n : Nat) (h : allColLen e n) :
    allSentColLen (stripSessionTimeStamp e) n := h

theorem runMessages_data_replicate (maxRows : Nat) (addr : String) (row : SensorRow)
    (now : Int) :
    ∀ (k : Nat) (store : SessionStore) (e : SessionEntry) (n : Nat),
      storeLookup store addr = some e → allColLen e n → n ≤ maxRows →
      ∃ (store2 : SessionStore) (e2 : SessionEntry),
        runMessages maxRows store (List.replicate k (dataMsg addr row, now)) =
          (store2, [], []) ∧
        storeLookup store2 addr = some e2 ∧
        allColLen e2 (min (n + k) maxRows) := by
  intro k
  induction k with
  | zero =>
    intro store e n hl hc hle
    refine ⟨store, e, rfl, hl, ?_⟩
    rw [Nat.add_zero, Nat.min_eq_left hle]
    exact hc
  | succ k ih =>
    intro store e n hl hc hle
    rw [List.replicate_succ, runMessages_cons]
    by_cases hroom : n < maxRows
    · rw [unwrapStep_dataMsg_accept maxRows store addr row now e hl
        (by rw [hc.2.2.2.2.1]; exact hroom)]
      dsimp only
      obtain ⟨store2, e2, hrun, hl2, hc2⟩ :=
        ih (storeInsert store addr (addRow e row now)) (addRow e row now) (n + 1)
          (storeLookup_insert_self _ _ _) (allColLen_addRow e row now n hc)
          (Nat.succ_le_of_lt hroom)
      refine ⟨store2, e2, ?_, hl2, ?_⟩
      · simp [hrun]
      · have harith : n + 1 + k = n + (k + 1) := by omega
        rw [harith] at hc2
        exact hc2
    · have hn : n = maxRows := Nat.le_antisymm hle (Nat.le_of_not_lt hroom)
      rw [unwrapStep_data_reject maxRows store (dataMsg addr row) now e row
        (by simp [dataMsg]) rfl (by simpa [dataMsg] using hl)
        (by rw [hc.2.2.2.2.1, hn])]
      dsimp only
      obtain ⟨store2, e2, hrun, hl2, hc2⟩ := ih store e n hl hc hle
      refine ⟨store2, e2, ?_, hl2, ?_⟩
      · simp [hrun]
      · subst hn
        rw [Nat.min_eq_right (Nat.le_add_right _ _)] at hc2
        rw [Nat.min_eq_right (Nat.le_add_right _ _)]
        exact hc2


/-! ### Blacklist lemmas -/

theorem blGet_blIncr (hw : String) :
    ∀ bl : List (String × Nat), (bl.find? (fun p => p.1 = hw)).isSome →
      blGet (blIncr bl hw) hw = blGet bl hw + 1 := by
  intro bl
  induction bl with
  | nil => intro h; cases h
  | cons x xs ih =>
    intro h
    by_cases hx : x.1 = hw
    · unfold blGet blIncr
      rw [List.map_cons, if_pos hx]
      rw [List.find?_cons_of_pos _ (by simpa using hx),
        List.find?_cons_of_pos _ (by simpa using hx)]
      rfl
    · have hd : (decide (x.1 = hw)) = false := decide_eq_false hx
      unfold blGet blIncr
      rw [List.map_cons, if_neg hx]
      rw [List.find?_cons_of_neg _ (by rw [hd]; exact Bool.false_ne_true),
        List.find?_cons_of_neg _ (by rw [hd]; exact Bool.false_ne_true)]
      have h' : (xs.find? (fun p => p.1 = hw)).isSome := by
        unfold blGet at ih
        rcases Option.isSome_iff_exists.mp h with ⟨q, hq⟩
        rw [List.find?_cons_of_neg _ (by rw [hd]; exact Bool.false_ne_true)] at hq
        exact Option.isSome_iff_exists.mpr ⟨q, hq⟩
      have := ih h'
      unfold blGet blIncr at this
      exact this


/-! ### Padding lemmas -/

theorem padZerosTo_length (n : Nat) (l : List Nat) (h : l.length ≤ n) :
    (padZerosTo n l).length = n := by
  simp [padZerosTo]
  omega

theorem asciiBytes_substr_le (str : String) (k : Nat) :
    (asciiBytes (jsSubstrTake str k)).length ≤ k := by
  simp [asciiBytes, jsSubstrTake]

/-! ## Claim theorems -/

/-- C1: `decodeEscapedBuffer` equals the reference decoder the
specification describes (left-to-right scan counting consecutive escape
bytes, emitting `escLen / 2` escapes plus terminator-or-stand-in on a
stand-in byte, flushing `escLen` escapes before any ordinary byte, and
flushing trailing escapes at end of input); in particular the empty
buffer decodes to the empty buffer. -/
theorem c1_decodeEscapedBuffer_matches_reference :
    (∀ b : List Nat, decodeEscapedBuffer b = specDecode b) ∧
      decodeEscapedBuffer [] = [] := by
  constructor
  · intro b
    have h := decodeEscapedGo_eq_fold b 0 []
    simpa [decodeEscapedBuffer, specDecode] using h
  · rfl

/-- C10: `closestMatch` returns no suggestion (`undefined`) whenever the
suggestion list is empty or every suggestion is at Levenshtein distance at
least 100 from the input, because the best-distance accumulator starts at
100 and only strict improvements are kept; for such field names the
unknown-field error text therefore reads `undefined` in place of a schema
field name. -/
theorem c10_closestMatch_undefined_when_far :
    (∀ (str : String) (suggestions : List String),
        suggestions = [] ∨ (∀ t ∈ suggestions, 100 ≤ levenshtein str t) →
        closestMatch str suggestions = none) ∧
    (∀ name : String,
        (∀ t ∈ schemaShortNames, 100 ≤ levenshtein (jsToLowerCase name) t) →
        unknownFieldError name =
          "Error: Unknown field label \"" ++ name ++ "\". Did you mean \"" ++
            "undefined" ++ "\"?") := by
  have hnone : ∀ (str : String) (suggestions : List String),
      suggestions = [] ∨ (∀ t ∈ suggestions, 100 ≤ levenshtein str t) →
      closestMatch str suggestions = none := by
    intro str suggestions h
    rcases h with h | h
    · rw [h]; rfl
    · exact closestMatchGo_of_forall_le str suggestions none 100 h
  refine ⟨hnone, ?_⟩
  intro name hfar
  unfold unknownFieldError
  rw [hnone (jsToLowerCase name) schemaShortNames (Or.inr hfar)]
  rfl

/-- Witness for C10 at a concrete input: a 100-character unknown field
name is at distance at least 100 from every schema short name, gets no
suggestion, and produces the `undefined` error text. -/
theorem c10_witness :
    closestMatch (jsToLowerCase longUnknownName) schemaShortNames = none ∧
    unknownFieldError longUnknownName =
      "Error: Unknown field label \"" ++ longUnknownName ++ "\". Did you mean \"" ++
        "undefined" ++ "\"?" :=
  ⟨c10_closestMatch_undefined_when_far.1 (jsToLowerCase longUnknownName) schemaShortNames
      (Or.inr (by decide)),
   c10_closestMatch_undefined_when_far.2 longUnknownName (by decide)⟩

/-- C6 counterexample: for the 100-character unknown field name, the
unknown-field rejection carries the suggestion text `undefined`, which is
not the schema short name at minimum Levenshtein distance (`time` is, and
every short name is a strictly better candidate than no suggestion), so
the claim as stated fails at this input. -/
theorem c6_counterexample :
    gatewayDataTypes.find? (fun t => t.shortName = longUnknownName) = none ∧
    readDataTokens (longUnknownName ++ ":1") =
      Except.error (unknownFieldError longUnknownName) ∧
    renderSuggestion (closestMatch (jsToLowerCase longUnknownName) schemaShortNames) =
      "undefined" ∧
    (∀ u ∈ schemaShortNames,
        levenshtein (jsToLowerCase longUnknownName) "time" ≤
          levenshtein (jsToLowerCase longUnknownName) u) ∧
    "time" ∈ schemaShortNames ∧ "undefined" ∉ schemaShortNames := by
  refine ⟨rfl, rfl, rfl, by decide, by decide, by decide⟩

/-- C6 (amended): when the first token of the received data has a field
name that is not a schema short name, tokenization rejects with the
unknown-field error, and — provided some schema short name is at
Levenshtein distance below 100 from the lowercased name — the suggestion
inside that error is the short name at minimum distance, ties resolved to
the earliest in schema iteration order. -/
theorem c6_unknown_field_suggestion (data tok : String) (rest : List String)
    (name : String)
    (hsplit : jsSplitOnChar ',' data = tok :: rest)
    (hname : name = tokenName tok)
    (hunknown : gatewayDataTypes.find? (fun t => t.shortName = name) = none)
    (hnear : ∃ u ∈ schemaShortNames, levenshtein (jsToLowerCase name) u < 100) :
    readDataTokens data = Except.error (unknownFieldError name) ∧
    ∃ t, closestMatch (jsToLowerCase name) schemaShortNames = some t ∧
      t ∈ schemaShortNames ∧
      (∀ u ∈ schemaShortNames,
        levenshtein (jsToLowerCase name) t ≤ levenshtein (jsToLowerCase name) u) ∧
      firstArgmin (levenshtein (jsToLowerCase name)) schemaShortNames = some t := by
  have hproc : processToken ⟨none, [], []⟩ tok = Except.error (unknownFieldError name) := by
    unfold processToken
    rw [← hname, hunknown]
  have hcm : closestMatch (jsToLowerCase name) schemaShortNames =
      firstArgmin (levenshtein (jsToLowerCase name)) schemaShortNames :=
    closestMatchGo_eq_firstArgmin (jsToLowerCase name) schemaShortNames none 100 hnear
  rcases firstArgmin_isSome (levenshtein (jsToLowerCase name)) schemaShortNames
    (by decide) with ⟨t, ht⟩
  refine ⟨?_, t, hcm.trans ht, (firstArgmin_mem_le _ _ _ ht).1,
    (firstArgmin_mem_le _ _ _ ht).2, ht⟩
  unfold readDataTokens
  rw [hsplit]
  unfold readDataTokensList
  rw [List.foldlM_cons, hproc]
  rfl

/-- Witness for C6 (amended) at a concrete input: the unknown token
`evnt` in `evnt:UP` is rejected with a minimum-distance suggestion. -/
theorem c6_witness :
    readDataTokens "evnt:UP" = Except.error (unknownFieldError "evnt") ∧
    ∃ t, closestMatch (jsToLowerCase "evnt") schemaShortNames = some t ∧
      t ∈ schemaShortNames ∧
      (∀ u ∈ schemaShortNames,
        levenshtein (jsToLowerCase "evnt") t ≤ levenshtein (jsToLowerCase "evnt") u) ∧
      firstArgmin (levenshtein (jsToLowerCase "evnt")) schemaShortNames = some t :=
  c6_unknown_field_suggestion "evnt:UP" "evnt:UP" [] "evnt" rfl rfl
    rfl ⟨"ping", by decide, by decide⟩

/-- C7: the numeric sensor decoders (the `sensordata`-topic schema entries
`temp`, `humid`, `press`, `light`, `ax`..`gz`, all instances of the
`Number(d)`-based decoder shape) reject exactly the values that do not
parse in full as a number; in particular `27.8abc` is rejected even though
a truncating parse (`parseFloat`) would read it as `27.8`. -/
theorem c7_numeric_decoders_reject_partial_prefixes :
    (∀ errPrefix d,
        (∃ e, numberFieldFun errPrefix d = Except.error e) ↔ ¬ parsesInFullAsNumber d) ∧
    (∀ t ∈ gatewayDataTypes, t.topics = ["sensordata"] →
        t.shortName ∈ ["temp", "humid", "press", "light", "ax", "ay", "az", "gx", "gy", "gz"] ∧
        ∃ p, t.decodeFun = numberFieldFun p) ∧
    jsStringToNumber "27.8abc" = none ∧
    numberFieldFun "Error: Non-numeric temperature: " "27.8abc" =
      Except.error "Error: Non-numeric temperature: 27.8abc" ∧
    jsParseFloat "27.8abc" = jsParseFloat "27.8" ∧
    (jsParseFloat "27.8abc").isSome = true ∧
    (∃ v, numberFieldFun "Error: Non-numeric temperature: " "27.8" = Except.ok v) := by
  refine ⟨?_, ?_, rfl, rfl, rfl, rfl, ⟨_, rfl⟩⟩
  · intro errPrefix d
    unfold numberFieldFun parsesInFullAsNumber
    by_cases hcond : ((jsStringToNumber d).isNone || d = "" : Bool)
    · rw [if_pos hcond]
      simp only [Bool.or_eq_true, Option.isNone_iff_eq_none, decide_eq_true_eq] at hcond
      constructor
      · intro _
        rcases hcond with hc | hc
        · intro hp; rw [hc] at hp; simp at hp
        · intro hp; exact hp.1 hc
      · intro _; exact ⟨_, rfl⟩
    · rw [if_neg hcond]
      simp only [Bool.or_eq_true, Option.isNone_iff_eq_none, decide_eq_true_eq, not_or] at hcond
      constructor
      · intro h; rcases h with ⟨e, he⟩; cases he
      · intro h
        exact absurd ⟨hcond.2, Option.isSome_iff_ne_none.mpr hcond.1⟩ h
  · intro t ht htop
    fin_cases ht <;>
      first
        | exact absurd htop (by decide)
        | exact ⟨by decide, _, rfl⟩

/-- Witness for C7 at a concrete input: the schema's `temp` entry is a
numeric sensor decoder, and it rejects `27.8abc`, which does not parse in
full as a number. -/
theorem c7_witness :
    ((gatewayDataTypes.get ⟨10, by decide⟩).shortName ∈
        ["temp", "humid", "press", "light", "ax", "ay", "az", "gx", "gy", "gz"] ∧
      ∃ p, (gatewayDataTypes.get ⟨10, by decide⟩).decodeFun = numberFieldFun p) ∧
    ¬ parsesInFullAsNumber "27.8abc" ∧
    (∃ e, numberFieldFun "Error: Non-numeric temperature: " "27.8abc" = Except.error e) :=
  ⟨c7_numeric_decoders_reject_partial_prefixes.2.1 _ (List.get_mem gatewayDataTypes _ _) rfl,
   by decide,
   (c7_numeric_decoders_reject_partial_prefixes.1 "Error: Non-numeric temperature: "
      "27.8abc").mpr (by decide)⟩


/-- C2 counterexample: an open session with zero rows, given
`session:end`, is rejected with the empty-session error but the buffer is
NOT discarded (the `delete sessionData[addr]` is commented out in the
source): the address still maps to its buffer afterwards, and a second
`session:end` is rejected with the empty-session error again, not with
the no-session error the claim predicts. -/
theorem c2_counterexample :
    storeLookup (unwrapStep 4500 [("0001", makeDataEntry "0001" 0)] (endMsg "0001") 5).store
        "0001" = some (makeDataEntry "0001" 0) ∧
    some (makeDataEntry "0001" 0) ≠ (none : Option SessionEntry) ∧
    (unwrapStep 4500 [("0001", makeDataEntry "0001" 0)] (endMsg "0001") 5).outcome =
      Except.error emptySessionError ∧
    (unwrapStep 4500 [("0001", makeDataEntry "0001" 0)] (endMsg "0001") 5).flushed = [] ∧
    (unwrapStep 4500
        (unwrapStep 4500 [("0001", makeDataEntry "0001" 0)] (endMsg "0001") 5).store
        (endMsg "0001") 6).outcome = Except.error emptySessionError ∧
    emptySessionError ≠ sessionNotStartedError :=
  ⟨rfl, by decide, rfl, rfl, rfl, by decide⟩

/-- C2 (amended): on `session:end` for an address whose open buffer holds
zero rows, the message is rejected with the empty-session error and
nothing is flushed downstream, but the buffer is kept: the store is
unchanged, the address stays in the Open state, and a subsequent
`session:end` is rejected with the same empty-session error (not the
no-session error). -/
theorem c2_empty_session_end_keeps_buffer (maxRows : Nat) (store : SessionStore)
    (m : DecodedMsg) (now now2 : Int) (e : SessionEntry)
    (hcmd : m.sessionCmd = some false) (hdata : m.sensordata = none)
    (hlook : storeLookup store m.addr = some e) (hempty : e.timeStamp.length = 0) :
    (unwrapStep maxRows store m now).outcome = Except.error emptySessionError ∧
    (unwrapStep maxRows store m now).store = store ∧
    (unwrapStep maxRows store m now).flushed = [] ∧
    (unwrapStep maxRows (unwrapStep maxRows store m now).store m now2).outcome =
      Except.error emptySessionError ∧
    emptySessionError ≠ sessionNotStartedError := by
  have hstart : startStage store m now = store := by
    unfold startStage
    rw [if_neg (by rw [hcmd]; exact fun h => by cases h)]
  have hend : sessionEndStep store m = (store, [], Except.error emptySessionError) := by
    unfold sessionEndStep
    rw [if_pos hcmd, hlook]
    simp [hempty]
  have h1 : unwrapStep maxRows store m now =
      ⟨store, pingWrites m, [], Except.error emptySessionError⟩ := by
    unfold unwrapStep
    rw [hdata]
    unfold afterDataStages
    rw [hstart, hend]
  have hstart2 : startStage store m now2 = store := by
    unfold startStage
    rw [if_neg (by rw [hcmd]; exact fun h => by cases h)]
  have h2 : unwrapStep maxRows store m now2 =
      ⟨store, pingWrites m, [], Except.error emptySessionError⟩ := by
    unfold unwrapStep
    rw [hdata]
    unfold afterDataStages
    rw [hstart2, hend]
  rw [h1]
  refine ⟨rfl, rfl, rfl, ?_, by decide⟩
  rw [h2]

/-- Witness for C2 (amended) at a concrete input: a fresh zero-row
session for address `0001` given `session:end` twice. -/
theorem c2_witness :
    (unwrapStep 4500 [("0001", makeDataEntry "0001" 0)] (endMsg "0001") 5).outcome =
      Except.error emptySessionError ∧
    (unwrapStep 4500 [("0001", makeDataEntry "0001" 0)] (endMsg "0001") 5).store =
      [("0001", makeDataEntry "0001" 0)] ∧
    (unwrapStep 4500 [("0001", makeDataEntry "0001" 0)] (endMsg "0001") 5).flushed = [] ∧
    (unwrapStep 4500
        (unwrapStep 4500 [("0001", makeDataEntry "0001" 0)] (endMsg "0001") 5).store
        (endMsg "0001") 6).outcome = Except.error emptySessionError ∧
    emptySessionError ≠ sessionNotStartedError :=
  c2_empty_session_end_keeps_buffer 4500 [("0001", makeDataEntry "0001" 0)] (endMsg "0001")
    5 6 (makeDataEntry "0001" 0) rfl rfl rfl rfl

/-- C4: the equal-column-length invariant of the session store is
preserved by processing any decoded message (session start, accepted or
rejected sensor data, ping, session end); an accepted sensor row appends
exactly one element to every column — the decoded value where the field
is present, `null` otherwise, and the elapsed time since session start
for a missing timestamp. -/
theorem c4_columns_lockstep :
    (∀ (maxRows : Nat) (store : SessionStore) (m : DecodedMsg) (now : Int),
        storeInvariant store → storeInvariant (unwrapStep maxRows store m now).store) ∧
    (∀ (e : SessionEntry) (r : SensorRow) (now : Int) (n : Nat),
        allColLen e n → allColLen (addRow e r now) (n + 1)) ∧
    (∀ (e : SessionEntry) (r : SensorRow) (now : Int),
        (addRow e r now).temperature = e.temperature ++ [r.temperature] ∧
        (addRow e r now).humidity = e.humidity ++ [r.humidity] ∧
        (addRow e r now).pressure = e.pressure ++ [r.pressure] ∧
        (addRow e r now).lightIntensity = e.lightIntensity ++ [r.lightIntensity] ∧
        (addRow e r now).timeStamp = e.timeStamp ++
          [some (r.timeStamp.getD (JsNum.fin ((now - e.sessionTimeStamp : Int) : ℚ)))] ∧
        (addRow e r now).ax = e.ax ++ [r.ax] ∧
        (addRow e r now).ay = e.ay ++ [r.ay] ∧
        (addRow e r now).az = e.az ++ [r.az] ∧
        (addRow e r now).gx = e.gx ++ [r.gx] ∧
        (addRow e r now).gy = e.gy ++ [r.gy] ∧
        (addRow e r now).gz = e.gz ++ [r.gz]) := by
  refine ⟨unwrapStep_inv, allColLen_addRow, ?_⟩
  intro e r now
  refine ⟨rfl, rfl, rfl, rfl, ?_, rfl, rfl, rfl, rfl, rfl, rfl⟩
  cases hr : r.timeStamp with
  | none => simp [addRow, hr]
  | some t => simp [addRow, hr]

/-- Witness for C4 at a concrete input: the invariant holds after
starting a session and adding one empty row to it. -/
theorem c4_witness :
    storeInvariant
      (unwrapStep 4500
        (unwrapStep 4500 [] (startMsg "0001") 0).store
        (dataMsg "0001" emptyRow) 7).store ∧
    allColLen (addRow (makeDataEntry "0001" 0) emptyRow 7) 1 :=
  ⟨c4_columns_lockstep.1 4500 (unwrapStep 4500 [] (startMsg "0001") 0).store
      (dataMsg "0001" emptyRow) 7
      (c4_columns_lockstep.1 4500 [] (startMsg "0001") 0 (by decide)),
   c4_columns_lockstep.2.1 (makeDataEntry "0001" 0) emptyRow 7 0 (by decide)⟩

/-- C5 counterexample: a successfully tokenized message carrying both a
ping and sensor data, sent while its address has no open session, is
rejected by the sensordata stage before the ping reply is issued: no
reply write is enqueued, contradicting the claim's "regardless of the
sender's session state". -/
theorem c5_counterexample :
    (unwrapStep 4500 [] (⟨"0001", none, some "pong", some emptyRow⟩ : DecodedMsg) 0).writes
      = [] ∧
    (unwrapStep 4500 [] (⟨"0001", none, some "pong", some emptyRow⟩ : DecodedMsg) 0).outcome
      = Except.error noSessionError :=
  ⟨rfl, rfl⟩

/-- C5 (amended): for a successfully tokenized message with a ping field,
the reply write to the sender is enqueued before and independently of the
session-end handling (so the ping is acknowledged even when the same
message carries a failing or succeeding `session:end`), provided the
message passes the sensordata stage: either it carries no sensor data, or
its row is accepted into the open session; a no-session or capacity
rejection of the sensordata stage returns before the ping reply. -/
theorem c5_ping_reply_before_session_end (maxRows : Nat) (store : SessionStore)
    (m : DecodedMsg) (now : Int) (p : String)
    (hping : m.ping = some p) :
    (m.sensordata = none →
      (unwrapStep maxRows store m now).writes = [⟨m.addr, p⟩]) ∧
    (∀ row e, m.sensordata = some row →
      storeLookup (startStage store m now) m.addr = some e →
      e.timeStamp.length < maxRows →
      (unwrapStep maxRows store m now).writes = [⟨m.addr, p⟩]) := by
  constructor
  · intro hdata
    unfold unwrapStep
    rw [hdata]
    unfold afterDataStages
    simp [pingWrites, hping]
  · intro row e hdata hlook hroom
    unfold unwrapStep
    rw [hdata, hlook]
    dsimp only
    rw [if_neg (Nat.not_le_of_lt hroom)]
    unfold afterDataStages
    simp [pingWrites, hping]

/-- Witness for C5 (amended) at a concrete input: a message carrying
`ping` and `session:end` with no open session still enqueues the `pong`
reply even though the session-end stage then rejects. -/
theorem c5_witness :
    (unwrapStep 4500 [] (⟨"0001", some false, some "pong", none⟩ : DecodedMsg) 0).writes =
      [⟨"0001", "pong"⟩] ∧
    (unwrapStep 4500 [] (⟨"0001", some false, some "pong", none⟩ : DecodedMsg) 0).outcome =
      Except.error sessionNotStartedError :=
  ⟨(c5_ping_reply_before_session_end 4500 []
      (⟨"0001", some false, some "pong", none⟩ : DecodedMsg) 0 "pong" rfl).1 rfl,
   rfl⟩


/-- C3: with an open session already holding `maxRows` rows, a further
plain sensordata message is rejected with the capacity error, leaving the
store — and every column of the buffer — unchanged at exactly `maxRows`
rows; a later message carrying only `session:end` still flushes the
capped buffer downstream; and in total, a session-start followed by
`maxRows + 1` data rows and a `session:end` flushes exactly one buffer
whose every column holds exactly `maxRows` rows. -/
theorem c3_capacity_cap_and_flush :
    (∀ (maxRows : Nat) (store : SessionStore) (m : DecodedMsg) (now : Int)
        (e : SessionEntry) (row : SensorRow),
        m.sessionCmd = none → m.sensordata = some row →
        storeLookup store m.addr = some e → allColLen e maxRows →
        (unwrapStep maxRows store m now).outcome =
          Except.error (sessionFullError maxRows) ∧
        (unwrapStep maxRows store m now).store = store ∧
        (unwrapStep maxRows store m now).writes = [] ∧
        (unwrapStep maxRows store m now).flushed = []) ∧
    (∀ (maxRows : Nat) (store : SessionStore) (addr : String) (now : Int)
        (e : SessionEntry),
        storeLookup store addr = some e → allColLen e maxRows → 0 < maxRows →
        (unwrapStep maxRows store (endMsg addr) now).flushed =
          [stripSessionTimeStamp e] ∧
        (unwrapStep maxRows store (endMsg addr) now).outcome = Except.ok () ∧
        storeLookup (unwrapStep maxRows store (endMsg addr) now).store addr = none ∧
        allSentColLen (stripSessionTimeStamp e) maxRows) ∧
    (∀ (maxRows : Nat) (addr : String) (row : SensorRow) (now : Int),
        0 < maxRows →
        ∃ s : SentSession,
          (runMessages maxRows []
              ((startMsg addr, now) ::
                (List.replicate (maxRows + 1) (dataMsg addr row, now) ++
                  [(endMsg addr, now)]))).2.2 = [s] ∧
          allSentColLen s maxRows) := by
  refine ⟨?_, ?_, ?_⟩
  · intro maxRows store m now e row hcmd hdata hlook hcols
    rw [unwrapStep_data_reject maxRows store m now e row
      (by rw [hcmd]; exact fun h => by cases h) hdata hlook
      (by rw [hcols.2.2.2.2.1])]
    exact ⟨rfl, rfl, rfl, rfl⟩
  · intro maxRows store addr now e hlook hcols hpos
    have hnz : e.timeStamp.length ≠ 0 := by
      rw [hcols.2.2.2.2.1]
      exact Nat.pos_iff_ne_zero.mp hpos
    rw [unwrapStep_end_flush maxRows store addr now e hlook hnz]
    exact ⟨rfl, rfl, storeLookup_erase_self store addr, allSentColLen_strip e maxRows hcols⟩
  · intro maxRows addr row now hpos
    rw [runMessages_cons, unwrapStep_start maxRows [] addr now]
    dsimp only
    rw [runMessages_append]
    obtain ⟨store2, e2, hrun, hl2, hc2⟩ :=
      runMessages_data_replicate maxRows addr row now (maxRows + 1)
        (storeInsert [] addr (makeDataEntry addr now)) (makeDataEntry addr now) 0
        (storeLookup_insert_self _ _ _)
        ⟨rfl, rfl, rfl, rfl, rfl, rfl, rfl, rfl, rfl, rfl, rfl⟩
        (Nat.zero_le _)
    rw [Nat.zero_add, Nat.min_eq_right (Nat.le_succ _)] at hc2
    have hnz : e2.timeStamp.length ≠ 0 := by
      rw [hc2.2.2.2.2.1]
      exact Nat.pos_iff_ne_zero.mp hpos
    refine ⟨stripSessionTimeStamp e2, ?_, allSentColLen_strip e2 maxRows hc2⟩
    rw [hrun]
    dsimp only
    rw [runMessages_cons, unwrapStep_end_flush maxRows store2 addr now e2 hl2 hnz]
    rfl

/-- Witness for C3 at a concrete input (`maxRows = 2`): a full two-row
buffer rejects a third row unchanged, `session:end` flushes it, and the
start / 3 rows / end sequence flushes exactly two rows. -/
theorem c3_witness :
    ((unwrapStep 2
        [("0001", addRow (addRow (makeDataEntry "0001" 0) emptyRow 1) emptyRow 2)]
        (dataMsg "0001" emptyRow) 3).outcome = Except.error (sessionFullError 2) ∧
      (unwrapStep 2
        [("0001", addRow (addRow (makeDataEntry "0001" 0) emptyRow 1) emptyRow 2)]
        (dataMsg "0001" emptyRow) 3).store =
          [("0001", addRow (addRow (makeDataEntry "0001" 0) emptyRow 1) emptyRow 2)] ∧
      (unwrapStep 2
        [("0001", addRow (addRow (makeDataEntry "0001" 0) emptyRow 1) emptyRow 2)]
        (dataMsg "0001" emptyRow) 3).writes = [] ∧
      (unwrapStep 2
        [("0001", addRow (addRow (makeDataEntry "0001" 0) emptyRow 1) emptyRow 2)]
        (dataMsg "0001" emptyRow) 3).flushed = []) ∧
    ((unwrapStep 2
        [("0001", addRow (addRow (makeDataEntry "0001" 0) emptyRow 1) emptyRow 2)]
        (endMsg "0001") 4).flushed =
      [stripSessionTimeStamp
        (addRow (addRow (makeDataEntry "0001" 0) emptyRow 1) emptyRow 2)]) ∧
    (∃ s : SentSession,
      (runMessages 2 []
          ((startMsg "0001", 0) ::
            (List.replicate 3 (dataMsg "0001" emptyRow, 0) ++
              [(endMsg "0001", 0)]))).2.2 = [s] ∧
      allSentColLen s 2) :=
  ⟨c3_capacity_cap_and_flush.1 2
      [("0001", addRow (addRow (makeDataEntry "0001" 0) emptyRow 1) emptyRow 2)]
      (dataMsg "0001" emptyRow) 3
      (addRow (addRow (makeDataEntry "0001" 0) emptyRow 1) emptyRow 2) emptyRow
      rfl rfl rfl (by decide),
   (c3_capacity_cap_and_flush.2.1 2
      [("0001", addRow (addRow (makeDataEntry "0001" 0) emptyRow 1) emptyRow 2)]
      "0001" 4
      (addRow (addRow (makeDataEntry "0001" 0) emptyRow 1) emptyRow 2)
      rfl (by decide) (by decide)).1,
   c3_capacity_cap_and_flush.2.2 2 "0001" emptyRow 0 (by decide)⟩


/-- C8: a candidate hardware id whose blacklist counter strictly exceeds
`maxTries` is skipped by the round-robin selector on every polling pass
that reaches it, with its counter (and the whole map) left untouched; any
frame with the valid challenge header `0xFE 0xFE 0x01` — from any device —
clears every counter and marks the challenge answered; with the counters
cleared the candidate is selectable again; and each `nextPort`
(handshake-timeout) call adds exactly one to the failed candidate's
counter, so the counter first exceeds `maxTries` after `maxTries + 1`
failures. -/
theorem c8_blacklist_skip_until_cleared :
    (∀ (maxTries : Nat) (st : FinderState) (hw : String),
        st.ok ≠ [] →
        ((jsSortPairs st.ok).getD (st.n % (jsSortPairs st.ok).length) ("", "")).2 = hw →
        maxTries < blGet st.blacklist hw →
        selectTick maxTries st =
          ({ st with
              ok := jsSortPairs st.ok
              n := st.n % (jsSortPairs st.ok).length + 1 }, none) ∧
        (selectTick maxTries st).1.blacklist = st.blacklist) ∧
    (∀ (data : List Nat) (st : FinderState) (r : Bool),
        challengeHeaderOk data →
        (parseChallenge data st r).1.blacklist = [] ∧
        (parseChallenge data st r).2.1 = true ∧
        (parseChallenge data st r).2.2 = false) ∧
    (∀ (maxTries : Nat) (st : FinderState),
        st.blacklist = [] → st.ok ≠ [] →
        (selectTick maxTries st).2 =
          some ((jsSortPairs st.ok).getD (st.n % (jsSortPairs st.ok).length) ("", "")).1) ∧
    (∀ (st : FinderState) (hw : String),
        st.ok ≠ [] →
        ((st.ok.getD (if st.n = 0 then st.ok.length - 1 else st.n - 1) ("", ""))).2 = hw →
        (st.blacklist.find? (fun p => p.1 = hw)).isSome →
        blGet (nextPort st).blacklist hw = blGet st.blacklist hw + 1) := by
  refine ⟨?_, ?_, ?_, ?_⟩
  · intro maxTries st hw hne hcand hgt
    unfold selectTick
    rw [if_neg (by simpa [List.isEmpty_iff] using hne)]
    dsimp only
    rw [hcand, if_pos hgt]
    exact ⟨rfl, rfl⟩
  · intro data st r h
    unfold parseChallenge
    rw [if_pos h]
    exact ⟨rfl, rfl, rfl⟩
  · intro maxTries st hbl hne
    unfold selectTick
    rw [if_neg (by simpa [List.isEmpty_iff] using hne)]
    dsimp only
    rw [if_neg (by rw [hbl]; exact Nat.not_lt_of_le (Nat.zero_le _))]
  · intro st hw hne hcand hmem
    unfold nextPort
    rw [if_neg (by simpa [List.isEmpty_iff] using hne)]
    dsimp only
    rw [hcand]
    exact blGet_blIncr hw st.blacklist hmem

/-- Witness for C8 at a concrete input: with `maxTries = 5`, the
candidate `usb-Texas-if00` at counter 6 is skipped with counters intact;
the response frame `fe fe 01 'O' 'K'` clears the blacklist; the cleared
state selects the candidate again; and a `nextPort` timeout raises the
counter from 6 to 7. -/
theorem c8_witness :
    (selectTick 5
        ⟨[("/dev/ttyACM0", "usb-Texas-if00"), ("/dev/ttyACM1", "usb-Other-if00")], 0,
          [("usb-Texas-if00", 6), ("usb-Other-if00", 0)]⟩ =
      (⟨[("/dev/ttyACM0", "usb-Texas-if00"), ("/dev/ttyACM1", "usb-Other-if00")], 1,
          [("usb-Texas-if00", 6), ("usb-Other-if00", 0)]⟩, none)) ∧
    ((parseChallenge [0xfe, 0xfe, 1, 79, 75]
        ⟨[("/dev/ttyACM0", "usb-Texas-if00")], 1, [("usb-Texas-if00", 6)]⟩
        false).1.blacklist = []) ∧
    ((selectTick 5
        ⟨[("/dev/ttyACM0", "usb-Texas-if00"), ("/dev/ttyACM1", "usb-Other-if00")], 0,
          []⟩).2 = some "/dev/ttyACM0") ∧
    (blGet
        (nextPort
          ⟨[("/dev/ttyACM0", "usb-Texas-if00")], 1, [("usb-Texas-if00", 6)]⟩).blacklist
        "usb-Texas-if00" = 7) := by
  refine ⟨?_, ?_, ?_, ?_⟩
  · exact (c8_blacklist_skip_until_cleared.1 5
      ⟨[("/dev/ttyACM0", "usb-Texas-if00"), ("/dev/ttyACM1", "usb-Other-if00")], 0,
        [("usb-Texas-if00", 6), ("usb-Other-if00", 0)]⟩
      "usb-Texas-if00" (by decide) (by decide) (by decide)).1
  · exact (c8_blacklist_skip_until_cleared.2.1 [0xfe, 0xfe, 1, 79, 75]
      ⟨[("/dev/ttyACM0", "usb-Texas-if00")], 1, [("usb-Texas-if00", 6)]⟩
      false (by decide)).1
  · exact c8_blacklist_skip_until_cleared.2.2.1 5
      ⟨[("/dev/ttyACM0", "usb-Texas-if00"), ("/dev/ttyACM1", "usb-Other-if00")], 0, []⟩
      rfl (by decide)
  · have := c8_blacklist_skip_until_cleared.2.2.2
      ⟨[("/dev/ttyACM0", "usb-Texas-if00")], 1, [("usb-Texas-if00", 6)]⟩
      "usb-Texas-if00" (by decide) (by decide) (by decide)
    rw [this]
    decide


/-- C9: in server/gateway mode, a non-internal outbound job is encoded at
enqueue time into a buffer of exactly `txlength` bytes whose first two
bytes are the destination address as a little-endian 16-bit integer
(defaulting to the `0xffff` broadcast when no address is given), with the
payload truncated to at most `txlength - 3` bytes starting at offset 2,
so the buffer always ends in at least one zero terminator byte; in peer
mode (and for internal frames) no address prefix is written — the buffer
is the raw text truncated to `txlength - 1` bytes, zero-padded. -/
theorem c9_uartWrite_wire_encoding :
    (∀ (txlength : Nat) (addrOpt : Option String) (str : String) (publish : Bool)
        (bc : Nat) (a : Nat),
        3 ≤ txlength →
        a = ((jsParseIntRadix16 (addrOpt.getD "ffff")).getD 0).toNat →
        a < 65536 →
        (uartWrite true txlength addrOpt false str publish bc).txBuf.length = txlength ∧
        (uartWrite true txlength addrOpt false str publish bc).txBuf.take 2 =
          [a % 256, a / 256] ∧
        (uartWrite true txlength addrOpt false str publish bc).txBuf.drop 2 =
          padZerosTo (txlength - 2) (asciiBytes (jsSubstrTake str (txlength - 3))) ∧
        (asciiBytes (jsSubstrTake str (txlength - 3))).length ≤ txlength - 3 ∧
        (∃ k, (uartWrite true txlength addrOpt false str publish bc).txBuf =
          [a % 256, a / 256] ++ asciiBytes (jsSubstrTake str (txlength - 3)) ++
            List.replicate (k + 1) 0)) ∧
    ((none : Option String).getD "ffff" = "ffff" ∧
      ((jsParseIntRadix16 "ffff").getD 0).toNat = 65535) ∧
    (∀ (txlength : Nat) (addrOpt : Option String) (str : String) (publish : Bool)
        (bc : Nat),
        (uartWrite false txlength addrOpt false str publish bc).txBuf =
          padZerosTo txlength (asciiBytes (jsSubstrTake str (txlength - 1))) ∧
        (uartWrite true txlength addrOpt true str publish bc).txBuf =
          padZerosTo txlength (asciiBytes (jsSubstrTake str (txlength - 1)))) := by
  refine ⟨?_, ⟨rfl, by decide⟩, ?_⟩
  · intro txlength addrOpt str publish bc a h3 ha hlt
    have hpay := asciiBytes_substr_le str (txlength - 3)
    have hW : writeUInt16LE a = [a % 256, a / 256] := by
      unfold writeUInt16LE
      rw [Nat.mod_eq_of_lt (by omega : a / 256 < 256)]
    have hbuf : (uartWrite true txlength addrOpt false str publish bc).txBuf =
        padZerosTo txlength
          ([a % 256, a / 256] ++ asciiBytes (jsSubstrTake str (txlength - 3))) := by
      unfold uartWrite
      rw [if_pos ⟨rfl, by simp⟩, ← ha, hW]
    have hlen2 : ([a % 256, a / 256] ++
        asciiBytes (jsSubstrTake str (txlength - 3))).length =
        (asciiBytes (jsSubstrTake str (txlength - 3))).length + 2 := by
      simp only [List.length_append, List.length_cons, List.length_nil]
      omega
    refine ⟨?_, ?_, ?_, hpay, ?_⟩
    · rw [hbuf, padZerosTo_length]
      rw [hlen2]
      omega
    · rw [hbuf]
      rfl
    · rw [hbuf]
      unfold padZerosTo
      rw [hlen2]
      show asciiBytes (jsSubstrTake str (txlength - 3)) ++
          List.replicate (txlength - ((asciiBytes (jsSubstrTake str (txlength - 3))).length + 2)) 0 =
        asciiBytes (jsSubstrTake str (txlength - 3)) ++
          List.replicate ((txlength - 2) - (asciiBytes (jsSubstrTake str (txlength - 3))).length) 0
      congr 2
      omega
    · refine ⟨txlength - 2 - (asciiBytes (jsSubstrTake str (txlength - 3))).length - 1, ?_⟩
      have hcount : txlength -
          ((asciiBytes (jsSubstrTake str (txlength - 3))).length + 2) =
          (txlength - 2 - (asciiBytes (jsSubstrTake str (txlength - 3))).length - 1) + 1 := by
        omega
      rw [hbuf]
      unfold padZerosTo
      rw [hlen2, hcount, List.append_assoc]
  · intro txlength addrOpt str publish bc
    constructor
    · unfold uartWrite
      rw [if_neg (by simp)]
    · unfold uartWrite
      rw [if_neg (by simp)]

/-- Witness for C9 at a concrete input (`txlength = 17`, the config
value): the address `beef` is written little-endian, and the payload is
truncated to 14 bytes with a trailing zero terminator. -/
theorem c9_witness :
    (uartWrite true 17 (some "beef") false "HELLO SENSORTAG WORLD" true 0).txBuf.length
        = 17 ∧
    (uartWrite true 17 (some "beef") false "HELLO SENSORTAG WORLD" true 0).txBuf.take 2
        = [0xef, 0xbe] ∧
    (uartWrite true 17 (some "beef") false "HELLO SENSORTAG WORLD" true 0).txBuf.drop 2
        = padZerosTo 15 (asciiBytes (jsSubstrTake "HELLO SENSORTAG WORLD" 14)) ∧
    (uartWrite false 17 none false "PING" true 0).txBuf =
      padZerosTo 17 (asciiBytes (jsSubstrTake "PING" 16)) := by
  have h := c9_uartWrite_wire_encoding.1 17 (some "beef") "HELLO SENSORTAG WORLD"
    true 0 0xbeef (by decide) (by decide) (by decide)
  exact ⟨h.1, h.2.1, h.2.2.1,
    (c9_uartWrite_wire_encoding.2.2 17 none "PING" true 0).1⟩

end SensortagGateway
